import Mathlib

/-!
Verification development for the pay-stub processing pipeline (`src/main.py`).

The program splits a multi-page PDF of pay stubs, extracts a recipient email
address from each page, emails the page as a one-page PDF attachment, and files
each artifact into a `Sent` or `Failed to Send` directory.

Shallow embedding conventions:
* Python strings are `Name := List Char`.
* The filesystem is a flat association list `Fs` from full path to a content
  id (`Nat`); the pipeline uses the page index as the content id of the
  artifact it saves.  `os.rename` is modelled with POSIX replace semantics.
* Exceptions are modelled by explicit `Option`/`Bool` results; the sources of
  runtime failure that the claims are about (artifact-save failure, SMTP
  failure, rename failure during filing) are injected by a per-page
  `PageOracle`.
* Observable side effects (mkdir, opening/closing the source document, SMTP
  sessions, sent messages, log lines) are recorded in an event trace.
-/

namespace PayStub

/-- Python strings are modelled as lists of characters. -/
abbrev Name := List Char

/-- Coercion from Lean string literals to `Name`. -/
def strL (s : String) : Name := s.toList

/-- The literal separator `" - "` used in artifact names (`main.py` lines 91, 95, 122). -/
def sepL : Name := strL " - "

/-- Path of a file inside the `Sent` directory (`os.path.join('Sent', name)`,
`main.py` lines 92, 96). -/
def sentRoot : Name := strL "Sent/"

/-- Path of a file inside the `Failed to Send` directory
(`os.path.join('Failed to Send', path)`, `main.py` line 145). -/
def failedRoot : Name := strL "Failed to Send/"

/-- A flat filesystem: full path to content id. -/
abbrev Fs := List (Name × Nat)

/-- Does a file exist at path `p`?  Models `os.path.exists` for files. -/
def fsHas (fs : Fs) (p : Name) : Bool := fs.any fun e => decide (e.1 = p)

/-- Content stored at path `p`, if any. -/
def fsGet (fs : Fs) (p : Name) : Option Nat :=
  (fs.find? fun e => decide (e.1 = p)).map Prod.snd

/-- Remove the entry at path `p` (no-op when absent). -/
def fsErase (fs : Fs) (p : Name) : Fs := fs.filter fun e => !(decide (e.1 = p))

/-- Create or overwrite the file at path `p` with content `c`.
Models a plain write such as `stub_pdf.save(path)` (silent overwrite). -/
def fsSet (fs : Fs) (p : Name) (c : Nat) : Fs := (p, c) :: fsErase fs p

/-- Model of POSIX `os.rename src dst`: the entry at `src` moves to `dst`,
silently replacing any existing entry at `dst`.  A missing `src` would raise in
Python; the pipeline only renames files it just verified or created, so the
missing-source case is modelled as a no-op and never exercised. -/
def fsRename (fs : Fs) (src dst : Name) : Fs :=
  match fsGet fs src with
  | some c => fsSet (fsErase fs src) dst c
  | none => fs

/-- Does list `l` start with the list `sep`? -/
def hasLead (sep l : Name) : Bool := decide (l.take sep.length = sep)

/-- Model of Python `s.split(sep, 1)` restricted to two-element unpacking:
returns the parts before and after the first occurrence of `sep`, or `none`
when `sep` does not occur (in which case `date_part, name_part = ...` raises
`ValueError`, `main.py` line 91). -/
def splitOnce (sep : Name) : Name → Option (Name × Name)
  | [] => none
  | c :: rest =>
    if hasLead sep (c :: rest) then some ([], (c :: rest).drop sep.length)
    else (splitOnce sep rest).map fun p => (c :: p.1, p.2)

/-- Characters admitted by the local-part character class `[\w\.-]` of the
pattern on `main.py` line 118 (ASCII reading of `\w`). -/
def localChar (c : Char) : Bool := c.isAlphanum || c == '_' || c == '.' || c == '-'

/-- The literal tail of the email pattern: `@` followed by the configured
domain followed by `.com`.  The source (`main.py` line 118) carries the
placeholder `[domain]` with the instruction "Replace [domain] with your
domain"; the embedding is parameterised by that configured domain. -/
def emailSuffix (domain : Name) : Name := '@' :: (domain ++ strL ".com")

/-- One anchored attempt of the regex `([\w\.-]+)@<domain>\.com` at the head of
`l`: the greedy group takes the maximal run of local-part characters, which
must be non-empty and be followed immediately by the literal suffix (no other
backtracking is possible because `@` is not a local-part character).  Returns
the captured group. -/
def matchAt (domain : Name) (l : Name) : Option Name :=
  if (l.takeWhile localChar).isEmpty then none
  else if hasLead (emailSuffix domain) (l.drop (l.takeWhile localChar).length) then
    some (l.takeWhile localChar)
  else none

/-- Leftmost-match scan of `re.search`: try each start position left to right. -/
def searchFrom (domain : Name) : Name → Option Name
  | [] => none
  | c :: rest =>
    match matchAt domain (c :: rest) with
    | some run => some run
    | none => searchFrom domain rest

/-- The Recipient Extractor (`main.py` lines 118-121): `re.search` for the
pattern, returning `(group(0), group(1))`, i.e. the whole matched address and
the captured local part. -/
def extract (domain : Name) (text : Name) : Option (Name × Name) :=
  match searchFrom domain text with
  | some run => some (run ++ emailSuffix domain, run)
  | none => none

/-- Decimal value of a digit string; left inverse of `Nat.toDigits 10` used to
prove that the collision counters render to distinct names. -/
def digitsVal : Name → Nat
  | [] => 0
  | c :: cs => (c.toNat - 48) * 10 ^ cs.length + digitsVal cs

/-- The collision-avoidance candidate name
`f"{date_part} - {name_part} - {counter}{ext}"` (`main.py` line 95). -/
def candName (d r ext : Name) (n : Nat) : Name :=
  d ++ sepL ++ r ++ sepL ++ (Nat.repr n).toList ++ ext

/-- The `while os.path.exists(sent_file_path)` loop of `move_to_sent_folder`
(`main.py` lines 93-97), with explicit fuel: `path` is the current candidate
basename (checked inside `Sent/`), `counter` the next counter to try.  The
caller supplies fuel `fs.length + 1`, which is proved sufficient, so the
fuel-exhausted branch is dead. -/
def sentLoop (fs : Fs) (d r ext : Name) : Nat → Name → Nat → Name
  | 0, path, _ => path
  | fuel + 1, path, counter =>
    if fsHas fs (sentRoot ++ path) then
      sentLoop fs d r ext fuel (candName d r ext counter) (counter + 1)
    else path

/-- Name resolution of `move_to_sent_folder` (`main.py` lines 88-97) given the
`os.path.splitext` decomposition `(base, ext)` of the artifact's basename:
split `base` on the first `" - "` (raising `ValueError`, modelled as `none`,
when absent), then probe the unmodified name first and counter names after. -/
def resolveSentName (fs : Fs) (base ext : Name) : Option Name :=
  match splitOnce sepL base with
  | none => none
  | some dr => some (sentLoop fs dr.1 dr.2 ext (fs.length + 1) (base ++ ext) 1)

/-- Model of `os.path.basename`: the part after the last `/`. -/
def basenameL (p : Name) : Name := ((p.reverse.takeWhile fun c => !(c == '/')).reverse)

/-- Split a filename at its last dot: models `os.path.splitext` for the names
this program produces (which end in `.pdf` and therefore always have a last
dot preceded by non-dot characters). -/
def lastDotSplit (p : Name) : Name × Name :=
  match splitOnce ['.'] p.reverse with
  | none => (p, [])
  | some ab => (ab.2.reverse, '.' :: ab.1.reverse)

/-- `move_to_failed_send_folder` (`main.py` lines 138-145):
`os.rename(output_pdf_path, os.path.join('Failed to Send', output_pdf_path))`.
The destination is the join of the failed directory with the artifact's path
unchanged; there is no existence check and no collision loop. -/
def move_to_failed_send_folder (fs : Fs) (path : Name) : Fs :=
  fsRename fs path (failedRoot ++ path)

/-- Run-wide configuration of `process_pay_stubs` (`main.py` line 100): the
configured pattern domain, the (already formatted) period end date, the
transport credentials, and the free-text body. -/
structure Cfg where
  domain : Name
  date : Name
  sender : Name
  password : Name
  body : Name
deriving DecidableEq

/-- One attachment of an outgoing message (`msg.add_attachment`, `main.py`
line 74). -/
structure Attachment where
  filename : Name
  maintype : Name
  subtype : Name
  content : Nat
deriving DecidableEq

/-- An outgoing email message (`main.py` lines 66-74). -/
structure EmailMsg where
  subject : Name
  fromAddr : Name
  toAddrs : List Name
  body : Name
  attachments : List Attachment
deriving DecidableEq

/-- Observable events of a run, in order of occurrence. -/
inductive Ev
  | docOpened
  | docClosed
  | mkdirFailedDir
  | mkdirSentDir
  | skippedLog (pageIdx : Nat)
  | artifactSaved (name : Name) (cid : Nat)
  | session (host : Name) (port : Nat) (implicitTLS : Bool) (user pw : Name)
  | msgSent (m : EmailMsg)
  | sentLog (addr : Name)
  | failedLog (addr : Name)
deriving DecidableEq

/-- Mutable state of a run: the filesystem plus whether the two tracked
directories exist. -/
structure St where
  fs : Fs
  sentDir : Bool
  failedDir : Bool
deriving DecidableEq

/-- Environment oracle for one page: where, if anywhere, the real world fails.
`ok` means everything succeeds; `splitFail` is a failure while materialising
the one-page PDF (`main.py` lines 123-126, outside the `try`); `dispatchFail`
is an SMTP connection/login/send failure (`main.py` lines 76-78);
`filingFail` is an `os.rename` failure inside `move_to_sent_folder`
(`main.py` line 98). -/
inductive PageOracle
  | ok
  | splitFail
  | dispatchFail
  | filingFail
deriving DecidableEq

/-- The message built by `send_email` on `main.py` lines 66-74: fixed subject
`'Pay Stub'`, the supplied sender as `From`, the recipient as sole `To`, the
supplied body, and one `application/pdf` attachment whose filename is the
artifact's basename and whose bytes are read from the artifact file. -/
def builtMsg (cfg : Cfg) (s : St) (receiver path : Name) : EmailMsg :=
  { subject := strL "Pay Stub"
    fromAddr := cfg.sender
    toAddrs := [receiver]
    body := cfg.body
    attachments := [{ filename := basenameL path, maintype := strL "application",
                      subtype := strL "pdf", content := (fsGet s.fs path).getD 0 }] }

/-- `send_email` (`main.py` lines 51-79).  Returns the new state, the events
it emitted, and `true` when it returned normally / `false` when it raised.
Steps in source order: create `Sent` if absent (lines 62-64), build the
message (lines 66-74), open one `SMTP_SSL('smtp.gmail.com', 465)` session,
log in, send (lines 76-78), then `move_to_sent_folder` (line 79). -/
def send_email (cfg : Cfg) (s : St) (receiver path : Name) (o : PageOracle) :
    St × List Ev × Bool :=
  let mkevs : List Ev := if s.sentDir then [] else [Ev.mkdirSentDir]
  let s1 : St := { s with sentDir := true }
  let msg : EmailMsg := builtMsg cfg s1 receiver path
  let sev := Ev.session (strL "smtp.gmail.com") 465 true cfg.sender cfg.password
  match o with
  | PageOracle.dispatchFail => (s1, mkevs ++ [sev], false)
  | PageOracle.filingFail => (s1, mkevs ++ [sev, Ev.msgSent msg], false)
  | _ =>
    match resolveSentName s1.fs (lastDotSplit (basenameL path)).1
        (lastDotSplit (basenameL path)).2 with
    | none => (s1, mkevs ++ [sev, Ev.msgSent msg], false)
    | some final =>
      ({ s1 with fs := fsRename s1.fs path (sentRoot ++ final) },
        mkevs ++ [sev, Ev.msgSent msg], true)

/-- Result of processing one page: either the loop continues with the new
state, or an uncaught exception aborts the whole run. -/
inductive StepRes
  | next (s : St) (evs : List Ev)
  | abort (s : St) (evs : List Ev)
deriving DecidableEq

/-- State carried by a step result. -/
def StepRes.state : StepRes → St
  | StepRes.next s _ => s
  | StepRes.abort s _ => s

/-- Events emitted by a step. -/
def StepRes.events : StepRes → List Ev
  | StepRes.next _ e => e
  | StepRes.abort _ e => e

/-- One iteration of the page loop of `process_pay_stubs` (`main.py` lines
115-135).  On a regex match the artifact `f"{period_end_date} - {id}.pdf"` is
saved (silent overwrite, outside the `try`: a failure there, `splitFail`,
aborts the run).  Then `send_email` runs inside `try`; any exception from it
(SMTP failure, or a failure inside `move_to_sent_folder`) is caught by
`except Exception` and the artifact is routed through
`move_to_failed_send_folder`.  On no match the page is only logged. -/
def stepPage (cfg : Cfg) (s : St) (idx : Nat) (text : Name) (o : PageOracle) : StepRes :=
  match extract cfg.domain text with
  | none => StepRes.next s [Ev.skippedLog idx]
  | some ai =>
    match o with
    | PageOracle.splitFail => StepRes.abort s []
    | _ =>
      let name := cfg.date ++ sepL ++ ai.2 ++ strL ".pdf"
      let s1 : St := { s with fs := fsSet s.fs name idx }
      let r := send_email cfg s1 ai.1 name o
      if r.2.2 then
        StepRes.next r.1 (Ev.artifactSaved name idx :: r.2.1 ++ [Ev.sentLog ai.1])
      else
        StepRes.next { r.1 with fs := move_to_failed_send_folder r.1.fs name }
          (Ev.artifactSaved name idx :: r.2.1 ++ [Ev.failedLog ai.1])

/-- The page loop (`main.py` lines 115-135).  The final `Bool` is `true` when
the loop ran to completion and `false` when an uncaught exception aborted it. -/
def runPages (cfg : Cfg) : St → Nat → List (Name × PageOracle) → St × List Ev × Bool
  | s, _, [] => (s, [], true)
  | s, i, p :: rest =>
    match stepPage cfg s i p.1 p.2 with
    | StepRes.next s' evs =>
      let t := runPages cfg s' (i + 1) rest
      (t.1, evs ++ t.2.1, t.2.2)
    | StepRes.abort s' evs => (s', evs, false)

/-- `process_pay_stubs` (`main.py` lines 100-136): create `Failed to Send`
unconditionally at the start (lines 111-112), open the source document (line
114), run the page loop, and close the document (line 136) — the close is only
reached when no exception escaped the loop, since there is no `try/finally`. -/
def process_pay_stubs (cfg : Cfg) (s0 : St) (pages : List (Name × PageOracle)) :
    St × List Ev × Bool :=
  let mkevs : List Ev := if s0.failedDir then [] else [Ev.mkdirFailedDir]
  let s1 : St := { s0 with failedDir := true }
  let t := runPages cfg s1 0 pages
  if t.2.2 then (t.1, mkevs ++ Ev.docOpened :: t.2.1 ++ [Ev.docClosed], true)
  else (t.1, mkevs ++ Ev.docOpened :: t.2.1, false)

/-- Event classifier: the document-open event. -/
def isDocOpenedEv : Ev → Bool
  | Ev.docOpened => true
  | _ => false

/-- Event classifier: the document-close event. -/
def isDocClosedEv : Ev → Bool
  | Ev.docClosed => true
  | _ => false

/-- Event classifier: an SMTP session being opened. -/
def isSessionEv : Ev → Bool
  | Ev.session _ _ _ _ _ => true
  | _ => false

/-- Event classifier: a message acknowledged as sent. -/
def isMsgSentEv : Ev → Bool
  | Ev.msgSent _ => true
  | _ => false

/-! ## Helper lemmas -/

theorem hasLead_append (sep l : Name) (h : hasLead sep l = true) :
    sep ++ l.drop sep.length = l := by
  have ht : l.take sep.length = sep := by simpa [hasLead] using h
  conv_rhs => rw [← List.take_append_drop sep.length l]
  rw [ht]

theorem matchAt_eq_some (domain l run : Name) :
    matchAt domain l = some run ↔
      run = l.takeWhile localChar ∧ (l.takeWhile localChar).isEmpty = false ∧
      hasLead (emailSuffix domain) (l.drop (l.takeWhile localChar).length) = true := by
  unfold matchAt
  split_ifs with h1 h2
  · simp [h1]
  · simp only [Bool.not_eq_true] at h1
    simp [h1, h2, eq_comm]
  · simp only [Bool.not_eq_true] at h1 h2
    simp [h1, h2]

theorem matchAt_nil (domain : Name) : matchAt domain [] = none := rfl

theorem searchFrom_some (domain : Name) :
    ∀ l run, searchFrom domain l = some run →
      ∃ i, matchAt domain (l.drop i) = some run ∧
        ∀ j, j < i → matchAt domain (l.drop j) = none := by
  intro l
  induction l with
  | nil => intro run h; simp [searchFrom] at h
  | cons c rest ih =>
    intro run h
    unfold searchFrom at h
    cases hm : matchAt domain (c :: rest) with
    | some r =>
      rw [hm] at h
      exact ⟨0, by simpa using hm.trans (by simpa using h), by omega⟩
    | none =>
      rw [hm] at h
      obtain ⟨i, hi, hlt⟩ := ih run h
      refine ⟨i + 1, by simpa using hi, ?_⟩
      intro j hj
      cases j with
      | zero => simpa using hm
      | succ j => exact by simpa using hlt j (by omega)

theorem searchFrom_none (domain : Name) :
    ∀ l, searchFrom domain l = none → ∀ i, matchAt domain (l.drop i) = none := by
  intro l
  induction l with
  | nil => intro _ i; simp [matchAt_nil]
  | cons c rest ih =>
    intro h i
    unfold searchFrom at h
    cases hm : matchAt domain (c :: rest) with
    | some r => rw [hm] at h; cases h
    | none =>
      rw [hm] at h
      cases i with
      | zero => simpa using hm
      | succ i => simpa using ih h i

/-! ## C1: the Recipient Extractor -/

/-- C1: for every page text, `extract` returns the leftmost match of the
email pattern: when it returns a pair, the identifier is the non-empty
captured local part, the address is the local part followed by `@`, the
configured domain and `.com`, the address is the substring of the text at the
match position, and no earlier position matches; when it returns `none`, no
position of the text matches. -/
theorem spec_c1 (domain text : Name) :
    (∀ addr ident, extract domain text = some (addr, ident) →
      ident ≠ [] ∧ addr = ident ++ '@' :: (domain ++ strL ".com") ∧
      ∃ i, matchAt domain (text.drop i) = some ident ∧
        (text.drop i).take addr.length = addr ∧
        ∀ j, j < i → matchAt domain (text.drop j) = none) ∧
    (extract domain text = none → ∀ i, matchAt domain (text.drop i) = none) := by
  constructor
  · intro addr ident h
    unfold extract at h
    cases hs : searchFrom domain text with
    | none => rw [hs] at h; cases h
    | some run =>
      rw [hs, Option.some.injEq, Prod.mk.injEq] at h
      obtain ⟨haddr, hident⟩ := h
      subst hident
      obtain ⟨i, hi, hlt⟩ := searchFrom_some domain text run hs
      obtain ⟨hrun, hne, hlead⟩ := (matchAt_eq_some domain (text.drop i) run).1 hi
      rw [← hrun] at hne hlead
      refine ⟨?_, by rw [← haddr]; rfl, i, hi, ?_, hlt⟩
      · intro hnil
        rw [hnil] at hne
        simp at hne
      · have h1 : run ++ (text.drop i).dropWhile localChar = text.drop i := by
          rw [hrun]; exact List.takeWhile_append_dropWhile _ _
        have h2 : (text.drop i).drop run.length = (text.drop i).dropWhile localChar := by
          conv_lhs => rw [← h1]
          rw [List.drop_left]
        have hsuf := hasLead_append _ _ hlead
        rw [h2] at hsuf
        have htext : text.drop i =
            (run ++ emailSuffix domain) ++
              ((text.drop i).dropWhile localChar).drop (emailSuffix domain).length := by
          rw [List.append_assoc, hsuf, h1]
        rw [← haddr, htext, List.take_left]
  · intro h i
    unfold extract at h
    cases hs : searchFrom domain text with
    | none => exact searchFrom_none domain text hs i
    | some run => rw [hs] at h; cases h

/-- Witness for C1 at the concrete page text `"to a.b-c@example.com now"` with
configured domain `"example"`. -/
theorem spec_c1_witness :
    (extract (strL "example") (strL "to a.b-c@example.com now") =
        some (strL "a.b-c@example.com", strL "a.b-c")) ∧
      (strL "a.b-c" ≠ [] ∧
        strL "a.b-c@example.com" = strL "a.b-c" ++ '@' :: (strL "example" ++ strL ".com") ∧
        ∃ i, matchAt (strL "example") ((strL "to a.b-c@example.com now").drop i) =
            some (strL "a.b-c") ∧
          ((strL "to a.b-c@example.com now").drop i).take (strL "a.b-c@example.com").length =
            strL "a.b-c@example.com" ∧
          ∀ j, j < i →
            matchAt (strL "example") ((strL "to a.b-c@example.com now").drop j) = none) :=
  ⟨by decide,
    (spec_c1 (strL "example") (strL "to a.b-c@example.com now")).1 _ _ (by decide)⟩

/-! ## Decimal rendering: `Nat.repr` is injective -/

theorem digitChar_toNat (k : Nat) (h : k < 10) : (Nat.digitChar k).toNat = 48 + k := by
  interval_cases k <;> decide

theorem toDigitsCore_val (fuel : Nat) :
    ∀ n ds, n < fuel →
      digitsVal (Nat.toDigitsCore 10 fuel n ds) = n * 10 ^ ds.length + digitsVal ds := by
  induction fuel with
  | zero => intro n ds h; omega
  | succ fuel ih =>
    intro n ds h
    simp only [Nat.toDigitsCore]
    split_ifs with h0
    · have hmod : n % 10 = n := by omega
      have hlt : n % 10 < 10 := by omega
      simp only [digitsVal, digitChar_toNat _ hlt]
      rw [hmod, Nat.add_sub_cancel_left]
    · rw [ih (n / 10) (Nat.digitChar (n % 10) :: ds) (by omega)]
      have hlt : n % 10 < 10 := by omega
      simp only [digitsVal, List.length_cons, digitChar_toNat _ hlt]
      have hdm : 10 * (n / 10) + n % 10 = n := Nat.div_add_mod n 10
      have hpow : (10 : Nat) ^ (ds.length + 1) = 10 * 10 ^ ds.length := by ring
      rw [hpow, Nat.add_sub_cancel_left]
      conv_rhs => rw [← hdm]
      ring

theorem digitsVal_repr (n : Nat) : digitsVal (Nat.repr n).toList = n := by
  have e : (Nat.repr n).toList = Nat.toDigitsCore 10 (n + 1) n [] := rfl
  rw [e, toDigitsCore_val (n + 1) n [] (Nat.lt_succ_self n)]
  simp [digitsVal]

theorem reprList_inj (m n : Nat) (h : (Nat.repr m).toList = (Nat.repr n).toList) : m = n := by
  have h2 := congrArg digitsVal h
  rwa [digitsVal_repr, digitsVal_repr] at h2

theorem candName_inj (d r ext : Name) (m n : Nat)
    (h : candName d r ext m = candName d r ext n) : m = n := by
  unfold candName at h
  rw [List.append_left_inj, List.append_right_inj] at h
  exact reprList_inj m n h

theorem unmod_ne_cand (d r ext : Name) (n : Nat) :
    d ++ sepL ++ r ++ ext ≠ candName d r ext n := by
  intro h
  have hlen := congrArg List.length h
  have hsep : sepL.length = 3 := rfl
  simp only [candName, List.length_append, hsep] at hlen
  omega

/-! ## Filing: filesystem lemmas and the collision loop -/

theorem fsHas_iff (fs : Fs) (p : Name) : fsHas fs p = true ↔ p ∈ fs.map Prod.fst := by
  simp only [fsHas, List.any_eq_true, decide_eq_true_eq, List.mem_map]

theorem fsHas_false_not_mem (fs : Fs) (p : Name) (h : fsHas fs p = false) :
    ∀ e, e ∈ fs → e.1 ≠ p := by
  intro e he hp
  have : fsHas fs p = true := (fsHas_iff fs p).2 (List.mem_map.2 ⟨e, he, hp⟩)
  rw [h] at this
  cases this

theorem mem_fsErase (fs : Fs) (p : Name) (e : Name × Nat) :
    e ∈ fsErase fs p ↔ e ∈ fs ∧ e.1 ≠ p := by
  simp [fsErase, List.mem_filter]

theorem splitOnce_eq (sep : Name) :
    ∀ l a b, splitOnce sep l = some (a, b) → l = a ++ sep ++ b := by
  intro l
  induction l with
  | nil => intro a b h; simp [splitOnce] at h
  | cons c rest ih =>
    intro a b h
    unfold splitOnce at h
    split_ifs at h with hlead
    · rw [Option.some.injEq, Prod.mk.injEq] at h
      obtain ⟨ha, hb⟩ := h
      subst ha; subst hb
      simpa using (hasLead_append sep (c :: rest) hlead).symm
    · cases hs : splitOnce sep rest with
      | none => rw [hs] at h; cases h
      | some p =>
        rw [hs, Option.map_some', Option.some.injEq, Prod.mk.injEq] at h
        obtain ⟨ha, hb⟩ := h
        subst ha; subst hb
        have hr := ih p.1 p.2 (by rw [hs])
        simp [hr, List.append_assoc]

theorem sentLoop_zero (fs : Fs) (d r ext path : Name) (counter : Nat) :
    sentLoop fs d r ext 0 path counter = path := rfl

theorem sentLoop_succ (fs : Fs) (d r ext path : Name) (fuel counter : Nat) :
    sentLoop fs d r ext (fuel + 1) path counter =
      if fsHas fs (sentRoot ++ path) then
        sentLoop fs d r ext fuel (candName d r ext counter) (counter + 1)
      else path := rfl

theorem sentLoop_spec (fs : Fs) (d r ext : Name) :
    ∀ fuel c,
      (∃ k, k < fuel ∧ fsHas fs (sentRoot ++ candName d r ext (c + k)) = false) →
      ∃ n, c ≤ n ∧
        sentLoop fs d r ext fuel (candName d r ext c) (c + 1) = candName d r ext n ∧
        fsHas fs (sentRoot ++ candName d r ext n) = false ∧
        ∀ m, c ≤ m → m < n → fsHas fs (sentRoot ++ candName d r ext m) = true := by
  intro fuel
  induction fuel with
  | zero =>
    rintro c ⟨k, hk, _⟩
    omega
  | succ fuel ih =>
    rintro c ⟨k, hk, hfree⟩
    rw [sentLoop_succ]
    by_cases hcur : fsHas fs (sentRoot ++ candName d r ext c) = true
    · rw [if_pos hcur]
      have hk0 : k ≠ 0 := by
        rintro rfl
        rw [Nat.add_zero] at hfree
        rw [hfree] at hcur
        cases hcur
      obtain ⟨n, hn, heq, hfree', hmin⟩ := ih (c + 1)
        ⟨k - 1, by omega, by rw [show c + 1 + (k - 1) = c + k by omega]; exact hfree⟩
      refine ⟨n, by omega, heq, hfree', ?_⟩
      intro m hm1 hm2
      rcases Nat.eq_or_lt_of_le hm1 with heqm | hltm
      · rw [← heqm]; exact hcur
      · exact hmin m hltm hm2
    · rw [if_neg hcur]
      refine ⟨c, Nat.le_refl c, rfl, ?_, by omega⟩
      revert hcur
      cases fsHas fs (sentRoot ++ candName d r ext c) <;> simp

theorem exists_unused (fs : Fs) (d r ext : Name)
    (hbase : fsHas fs (sentRoot ++ (d ++ sepL ++ r ++ ext)) = true) :
    ∃ k, k < fs.length ∧ fsHas fs (sentRoot ++ candName d r ext (1 + k)) = false := by
  by_contra hc
  push_neg at hc
  have hall : ∀ k, k < fs.length →
      fsHas fs (sentRoot ++ candName d r ext (1 + k)) = true := by
    intro k hk
    have h1 := hc k hk
    revert h1
    cases fsHas fs (sentRoot ++ candName d r ext (1 + k)) <;> simp
  set probes : List Name :=
    (sentRoot ++ (d ++ sepL ++ r ++ ext)) ::
      (List.range fs.length).map (fun k => sentRoot ++ candName d r ext (1 + k)) with hprobes
  have hsub : ∀ p ∈ probes, p ∈ fs.map Prod.fst := by
    intro p hp
    rw [hprobes, List.mem_cons] at hp
    rcases hp with hp | hp
    · rw [hp]; exact (fsHas_iff _ _).1 hbase
    · rw [List.mem_map] at hp
      obtain ⟨k, hk, hkp⟩ := hp
      rw [List.mem_range] at hk
      rw [← hkp]
      exact (fsHas_iff _ _).1 (hall k hk)
  have hnodup : probes.Nodup := by
    rw [hprobes, List.nodup_cons]
    constructor
    · intro hmem
      rw [List.mem_map] at hmem
      obtain ⟨k, _, hkp⟩ := hmem
      have := List.append_cancel_left hkp
      exact unmod_ne_cand d r ext (1 + k) this.symm
    · refine List.Nodup.map ?_ (List.nodup_range fs.length)
      intro a b hab
      have h2 := List.append_cancel_left hab
      have h3 := candName_inj d r ext (1 + a) (1 + b) h2
      omega
  have hlen : probes.length = fs.length + 1 := by
    rw [hprobes]
    simp [List.length_map, List.length_range]
  have hcard1 : probes.toFinset.card = fs.length + 1 := by
    rw [List.toFinset_card_of_nodup hnodup, hlen]
  have hcard2 : probes.toFinset ⊆ (fs.map Prod.fst).toFinset := by
    intro x hx
    rw [List.mem_toFinset] at hx ⊢
    exact hsub x hx
  have hcard3 : (fs.map Prod.fst).toFinset.card ≤ fs.length := by
    calc (fs.map Prod.fst).toFinset.card ≤ (fs.map Prod.fst).length :=
          List.toFinset_card_le _
      _ = fs.length := List.length_map _ _
  have := Finset.card_le_card hcard2
  omega

/-! ## C2: collision avoidance when filing delivered artifacts -/

/-- C2: for every artifact whose basename splits as `"<date> - <rest><ext>"`,
`move_to_sent_folder`'s name resolution succeeds and returns a name that is
unused in the `Sent` directory; the unmodified name is used when free,
otherwise the candidate `"<date> - <rest> - <n><ext>"` for the smallest
`n ≥ 1` whose candidate is unused; consequently the subsequent rename never
overwrites an existing file (every other entry of the filesystem survives). -/
theorem spec_c2 (fs : Fs) (base ext d r : Name)
    (hsplit : splitOnce sepL base = some (d, r)) :
    ∃ final, resolveSentName fs base ext = some final ∧
      fsHas fs (sentRoot ++ final) = false ∧
      (fsHas fs (sentRoot ++ (base ++ ext)) = false → final = base ++ ext) ∧
      (fsHas fs (sentRoot ++ (base ++ ext)) = true →
        ∃ n, 1 ≤ n ∧ final = candName d r ext n ∧
          ∀ m, 1 ≤ m → m < n → fsHas fs (sentRoot ++ candName d r ext m) = true) ∧
      (∀ e, e ∈ fs → e.1 ≠ base ++ ext →
        e ∈ fsRename fs (base ++ ext) (sentRoot ++ final)) := by
  have hbase : base = d ++ sepL ++ r := splitOnce_eq sepL base d r hsplit
  have hres : resolveSentName fs base ext =
      some (sentLoop fs d r ext (fs.length + 1) (base ++ ext) 1) := by
    unfold resolveSentName
    rw [hsplit]
  by_cases hused : fsHas fs (sentRoot ++ (base ++ ext)) = true
  · obtain ⟨k, hk, hfree⟩ := exists_unused fs d r ext (by rw [← List.append_assoc, ← hbase]; exact hused)
    have hstep : sentLoop fs d r ext (fs.length + 1) (base ++ ext) 1 =
        sentLoop fs d r ext fs.length (candName d r ext 1) 2 := by
      rw [sentLoop_succ, if_pos hused]
    obtain ⟨n, hn1, heq, hfree', hmin⟩ :=
      sentLoop_spec fs d r ext fs.length 1 ⟨k, hk, hfree⟩
    refine ⟨candName d r ext n, ?_, hfree', ?_, ?_, ?_⟩
    · rw [hres, hstep, heq]
    · intro hcontra; rw [hcontra] at hused; cases hused
    · intro _; exact ⟨n, hn1, rfl, hmin⟩
    · intro e he hne
      unfold fsRename
      cases hg : fsGet fs (base ++ ext) with
      | none => exact he
      | some c =>
        unfold fsSet
        have h1 : e ∈ fsErase fs (base ++ ext) := (mem_fsErase _ _ _).2 ⟨he, hne⟩
        have h2 : e.1 ≠ sentRoot ++ candName d r ext n :=
          fsHas_false_not_mem fs _ hfree' e he
        exact List.mem_cons_of_mem _ ((mem_fsErase _ _ _).2 ⟨h1, h2⟩)
  · have hused' : fsHas fs (sentRoot ++ (base ++ ext)) = false := by
      revert hused
      cases fsHas fs (sentRoot ++ (base ++ ext)) <;> simp
    have hstep : sentLoop fs d r ext (fs.length + 1) (base ++ ext) 1 = base ++ ext := by
      rw [sentLoop_succ, if_neg (by rw [hused']; exact Bool.false_ne_true)]
    refine ⟨base ++ ext, by rw [hres, hstep], hused', fun _ => rfl, ?_, ?_⟩
    · intro hcontra; rw [hcontra] at hused'; cases hused'
    · intro e he hne
      unfold fsRename
      cases hg : fsGet fs (base ++ ext) with
      | none => exact he
      | some c =>
        unfold fsSet
        have h1 : e ∈ fsErase fs (base ++ ext) := (mem_fsErase _ _ _).2 ⟨he, hne⟩
        have h2 : e.1 ≠ sentRoot ++ (base ++ ext) :=
          fsHas_false_not_mem fs _ hused' e he
        exact List.mem_cons_of_mem _ ((mem_fsErase _ _ _).2 ⟨h1, h2⟩)

/-- Witness for C2: a `Sent` directory already holding
`"2024-01-15 - alice.pdf"` and `"2024-01-15 - alice - 1.pdf"`. -/
theorem spec_c2_witness :
    splitOnce sepL (strL "2024-01-15 - alice") = some (strL "2024-01-15", strL "alice") ∧
    ∃ final,
      resolveSentName
          [(strL "Sent/2024-01-15 - alice.pdf", 0), (strL "Sent/2024-01-15 - alice - 1.pdf", 1)]
          (strL "2024-01-15 - alice") (strL ".pdf") = some final ∧
      fsHas [(strL "Sent/2024-01-15 - alice.pdf", 0), (strL "Sent/2024-01-15 - alice - 1.pdf", 1)]
          (sentRoot ++ final) = false ∧
      (fsHas [(strL "Sent/2024-01-15 - alice.pdf", 0), (strL "Sent/2024-01-15 - alice - 1.pdf", 1)]
          (sentRoot ++ (strL "2024-01-15 - alice" ++ strL ".pdf")) = false →
        final = strL "2024-01-15 - alice" ++ strL ".pdf") ∧
      (fsHas [(strL "Sent/2024-01-15 - alice.pdf", 0), (strL "Sent/2024-01-15 - alice - 1.pdf", 1)]
          (sentRoot ++ (strL "2024-01-15 - alice" ++ strL ".pdf")) = true →
        ∃ n, 1 ≤ n ∧ final = candName (strL "2024-01-15") (strL "alice") (strL ".pdf") n ∧
          ∀ m, 1 ≤ m → m < n →
            fsHas [(strL "Sent/2024-01-15 - alice.pdf", 0),
                (strL "Sent/2024-01-15 - alice - 1.pdf", 1)]
              (sentRoot ++ candName (strL "2024-01-15") (strL "alice") (strL ".pdf") m) = true) ∧
      (∀ e, e ∈ [(strL "Sent/2024-01-15 - alice.pdf", 0),
            (strL "Sent/2024-01-15 - alice - 1.pdf", 1)] →
        e.1 ≠ strL "2024-01-15 - alice" ++ strL ".pdf" →
        e ∈ fsRename
          [(strL "Sent/2024-01-15 - alice.pdf", 0), (strL "Sent/2024-01-15 - alice - 1.pdf", 1)]
          (strL "2024-01-15 - alice" ++ strL ".pdf") (sentRoot ++ final)) :=
  ⟨by decide, spec_c2 _ _ _ _ _ (by decide)⟩

/-! ## Filesystem algebra -/

theorem fsGet_cons (e : Name × Nat) (fs : Fs) (q : Name) :
    fsGet (e :: fs) q = if e.1 = q then some e.2 else fsGet fs q := by
  by_cases h : e.1 = q
  · simp [fsGet, List.find?_cons_of_pos, h]
  · simp [fsGet, List.find?_cons_of_neg, h]

theorem fsGet_fsSet_self (fs : Fs) (p : Name) (c : Nat) :
    fsGet (fsSet fs p c) p = some c := by
  unfold fsSet
  rw [fsGet_cons]
  simp

theorem fsGet_fsErase_ne (fs : Fs) (p q : Name) (h : q ≠ p) :
    fsGet (fsErase fs p) q = fsGet fs q := by
  induction fs with
  | nil => rfl
  | cons e fs ih =>
    by_cases he : e.1 = p
    · have hq : e.1 ≠ q := by rw [he]; exact fun hc => h hc.symm
      rw [show fsErase (e :: fs) p = fsErase fs p by simp [fsErase, List.filter_cons, he]]
      rw [fsGet_cons, if_neg hq]
      exact ih
    · rw [show fsErase (e :: fs) p = e :: fsErase fs p by simp [fsErase, List.filter_cons, he]]
      rw [fsGet_cons, fsGet_cons]
      by_cases hq : e.1 = q
      · rw [if_pos hq, if_pos hq]
      · rw [if_neg hq, if_neg hq]; exact ih

theorem fsGet_fsErase_self (fs : Fs) (p : Name) : fsGet (fsErase fs p) p = none := by
  induction fs with
  | nil => rfl
  | cons e fs ih =>
    by_cases he : e.1 = p
    · rw [show fsErase (e :: fs) p = fsErase fs p by simp [fsErase, List.filter_cons, he]]
      exact ih
    · rw [show fsErase (e :: fs) p = e :: fsErase fs p by simp [fsErase, List.filter_cons, he]]
      rw [fsGet_cons, if_neg he]
      exact ih

theorem fsGet_fsSet_ne (fs : Fs) (p q : Name) (c : Nat) (h : q ≠ p) :
    fsGet (fsSet fs p c) q = fsGet fs q := by
  unfold fsSet
  rw [fsGet_cons, if_neg (fun hc => h hc.symm), fsGet_fsErase_ne fs p q h]

theorem fsRename_of_get (fs : Fs) (src dst : Name) (c : Nat) (h : fsGet fs src = some c) :
    fsRename fs src dst = fsSet (fsErase fs src) dst c := by
  unfold fsRename
  rw [h]

/-! ## Path shape facts -/

theorem slash_mem_sentRoot_append (q : Name) : ('/' : Char) ∈ sentRoot ++ q :=
  List.mem_append_left q (by decide)

theorem slash_mem_failedRoot_append (q : Name) : ('/' : Char) ∈ failedRoot ++ q :=
  List.mem_append_left q (by decide)

theorem failedRoot_app_ne_sentRoot_app (a b : Name) : failedRoot ++ a ≠ sentRoot ++ b := by
  intro h
  have h2 := congrArg List.headI h
  simp [failedRoot, sentRoot, strL] at h2

theorem searchFrom_run_localChar (domain : Name) :
    ∀ l run, searchFrom domain l = some run → ∀ c ∈ run, localChar c = true := by
  intro l run h c hc
  obtain ⟨i, hi, _⟩ := searchFrom_some domain l run h
  obtain ⟨hrun, _, _⟩ := (matchAt_eq_some domain (l.drop i) run).1 hi
  rw [hrun] at hc
  exact List.mem_takeWhile_imp hc

theorem extract_ident_localChar (domain text addr ident : Name)
    (h : extract domain text = some (addr, ident)) : ∀ c ∈ ident, localChar c = true := by
  unfold extract at h
  cases hs : searchFrom domain text with
  | none => rw [hs] at h; cases h
  | some run =>
    rw [hs, Option.some.injEq, Prod.mk.injEq] at h
    rw [← h.2]
    exact searchFrom_run_localChar domain text run hs

/-- The artifact name `f"{date} - {ident}.pdf"` contains no `/` when the date
does not and the identifier consists of local-part characters; hence it is a
path in the working directory, distinct from every path under `Sent/` or
`Failed to Send/`. -/
theorem artifact_name_no_slash (date ident : Name) (hd : ('/' : Char) ∉ date)
    (hi : ∀ c ∈ ident, localChar c = true) :
    ('/' : Char) ∉ date ++ sepL ++ ident ++ strL ".pdf" := by
  intro hmem
  rcases List.mem_append.1 hmem with hmem | hmem
  · rcases List.mem_append.1 hmem with hmem | hmem
    · rcases List.mem_append.1 hmem with hmem | hmem
      · exact hd hmem
      · simp [sepL, strL] at hmem
    · have := hi _ hmem
      simp [localChar] at this
  · simp [strL] at hmem

theorem no_slash_ne_sentRoot_app (l q : Name) (h : ('/' : Char) ∉ l) :
    l ≠ sentRoot ++ q := by
  intro hc
  exact h (hc ▸ slash_mem_sentRoot_append q)

theorem no_slash_ne_failedRoot_app (l q : Name) (h : ('/' : Char) ∉ l) :
    l ≠ failedRoot ++ q := by
  intro hc
  exact h (hc ▸ slash_mem_failedRoot_append q)

/-! ## Pipeline unfolding lemmas -/

theorem runPages_cons (cfg : Cfg) (s : St) (i : Nat) (text : Name) (o : PageOracle)
    (rest : List (Name × PageOracle)) :
    runPages cfg s i ((text, o) :: rest) =
      match stepPage cfg s i text o with
      | StepRes.next s' evs =>
        ((runPages cfg s' (i + 1) rest).1, evs ++ (runPages cfg s' (i + 1) rest).2.1,
          (runPages cfg s' (i + 1) rest).2.2)
      | StepRes.abort s' evs => (s', evs, false) := rfl

theorem runPages_cons_next (cfg : Cfg) (s : St) (i : Nat) (text : Name) (o : PageOracle)
    (rest : List (Name × PageOracle)) (s' : St) (evs : List Ev)
    (h : stepPage cfg s i text o = StepRes.next s' evs) :
    runPages cfg s i ((text, o) :: rest) =
      ((runPages cfg s' (i + 1) rest).1, evs ++ (runPages cfg s' (i + 1) rest).2.1,
        (runPages cfg s' (i + 1) rest).2.2) := by
  rw [runPages_cons, h]

theorem runPages_cons_abort (cfg : Cfg) (s : St) (i : Nat) (text : Name) (o : PageOracle)
    (rest : List (Name × PageOracle)) (s' : St) (evs : List Ev)
    (h : stepPage cfg s i text o = StepRes.abort s' evs) :
    runPages cfg s i ((text, o) :: rest) = (s', evs, false) := by
  rw [runPages_cons, h]

theorem stepPage_of_no_match (cfg : Cfg) (s : St) (idx : Nat) (text : Name) (o : PageOracle)
    (h : extract cfg.domain text = none) :
    stepPage cfg s idx text o = StepRes.next s [Ev.skippedLog idx] := by
  unfold stepPage
  rw [h]

theorem stepPage_splitFail_eq (cfg : Cfg) (s : St) (idx : Nat) (text : Name)
    (ai : Name × Name) (h : extract cfg.domain text = some ai) :
    stepPage cfg s idx text PageOracle.splitFail = StepRes.abort s [] := by
  unfold stepPage
  rw [h]

theorem stepPage_dispatchFail_eq (cfg : Cfg) (s : St) (idx : Nat) (text addr ident : Name)
    (h : extract cfg.domain text = some (addr, ident)) :
    stepPage cfg s idx text PageOracle.dispatchFail =
      StepRes.next
        { fs := fsRename (fsSet s.fs (cfg.date ++ sepL ++ ident ++ strL ".pdf") idx)
            (cfg.date ++ sepL ++ ident ++ strL ".pdf")
            (failedRoot ++ (cfg.date ++ sepL ++ ident ++ strL ".pdf")),
          sentDir := true, failedDir := s.failedDir }
        (Ev.artifactSaved (cfg.date ++ sepL ++ ident ++ strL ".pdf") idx ::
          ((if s.sentDir then [] else [Ev.mkdirSentDir]) ++
            [Ev.session (strL "smtp.gmail.com") 465 true cfg.sender cfg.password]) ++
          [Ev.failedLog addr]) := by
  unfold stepPage
  rw [h]
  rfl

/-! ## C3: dispatch failure routes the artifact to the failed directory -/

/-- C3: on every page whose dispatch fails, the page loop step catches the
exception and continues (no abort): afterwards the page's artifact is in
`Failed to Send` under its name, it is gone from the working directory, the
`Sent` directory is untouched (and no message-sent event occurred), and the
loop equation shows the pipeline proceeds with all subsequent pages. -/
theorem spec_c3 (cfg : Cfg) (s : St) (idx : Nat) (text addr ident : Name)
    (hx : extract cfg.domain text = some (addr, ident))
    (hdate : ('/' : Char) ∉ cfg.date) :
    ∃ s' evs,
      stepPage cfg s idx text PageOracle.dispatchFail = StepRes.next s' evs ∧
      fsGet s'.fs (failedRoot ++ (cfg.date ++ sepL ++ ident ++ strL ".pdf")) = some idx ∧
      fsGet s'.fs (cfg.date ++ sepL ++ ident ++ strL ".pdf") = none ∧
      (∀ q, fsGet s'.fs (sentRoot ++ q) = fsGet s.fs (sentRoot ++ q)) ∧
      evs.countP isMsgSentEv = 0 ∧
      (∀ rest, runPages cfg s idx ((text, PageOracle.dispatchFail) :: rest) =
        ((runPages cfg s' (idx + 1) rest).1,
          evs ++ (runPages cfg s' (idx + 1) rest).2.1,
          (runPages cfg s' (idx + 1) rest).2.2)) := by
  have hstep := stepPage_dispatchFail_eq cfg s idx text addr ident hx
  have hns : ('/' : Char) ∉ cfg.date ++ sepL ++ ident ++ strL ".pdf" :=
    artifact_name_no_slash cfg.date ident hdate (extract_ident_localChar _ _ _ _ hx)
  set name := cfg.date ++ sepL ++ ident ++ strL ".pdf" with hname
  have hget : fsGet (fsSet s.fs name idx) name = some idx := fsGet_fsSet_self _ _ _
  have hren : fsRename (fsSet s.fs name idx) name (failedRoot ++ name) =
      fsSet (fsErase (fsSet s.fs name idx) name) (failedRoot ++ name) idx :=
    fsRename_of_get _ _ _ _ hget
  refine ⟨_, _, hstep, ?_, ?_, ?_, ?_, ?_⟩
  · show fsGet (fsRename (fsSet s.fs name idx) name (failedRoot ++ name))
        (failedRoot ++ name) = some idx
    rw [hren]
    exact fsGet_fsSet_self _ _ _
  · show fsGet (fsRename (fsSet s.fs name idx) name (failedRoot ++ name)) name = none
    rw [hren, fsGet_fsSet_ne _ _ _ _ (no_slash_ne_failedRoot_app name name hns)]
    exact fsGet_fsErase_self _ _
  · intro q
    show fsGet (fsRename (fsSet s.fs name idx) name (failedRoot ++ name)) (sentRoot ++ q) =
      fsGet s.fs (sentRoot ++ q)
    rw [hren,
      fsGet_fsSet_ne _ _ _ _ (fun hc => failedRoot_app_ne_sentRoot_app name q hc.symm),
      fsGet_fsErase_ne _ _ _ (fun hc => no_slash_ne_sentRoot_app name q hns hc.symm),
      fsGet_fsSet_ne _ _ _ _ (fun hc => no_slash_ne_sentRoot_app name q hns hc.symm)]
  · cases s.sentDir <;>
      simp [List.countP_cons, List.countP_append, isMsgSentEv]
  · intro rest
    exact runPages_cons_next cfg s idx text PageOracle.dispatchFail rest _ _ hstep

/-- Witness for C3: a state with an unrelated file already in `Sent`, one
page addressed to `bob@example.com`, dispatch failing. -/
theorem spec_c3_witness :
    extract (strL "example") (strL "pay stub bob@example.com") =
        some (strL "bob@example.com", strL "bob") ∧
      ('/' : Char) ∉ strL "2024-01-15" ∧
      ∃ s' evs,
        stepPage ⟨strL "example", strL "2024-01-15", strL "hr@example.com", strL "pw", strL "hi"⟩
            ⟨[(strL "Sent/old.pdf", 7)], false, true⟩ 0 (strL "pay stub bob@example.com")
            PageOracle.dispatchFail = StepRes.next s' evs ∧
        fsGet s'.fs (failedRoot ++ (strL "2024-01-15" ++ sepL ++ strL "bob" ++ strL ".pdf")) =
          some 0 ∧
        fsGet s'.fs (strL "2024-01-15" ++ sepL ++ strL "bob" ++ strL ".pdf") = none ∧
        (∀ q, fsGet s'.fs (sentRoot ++ q) =
          fsGet [(strL "Sent/old.pdf", 7)] (sentRoot ++ q)) ∧
        evs.countP isMsgSentEv = 0 ∧
        (∀ rest,
          runPages ⟨strL "example", strL "2024-01-15", strL "hr@example.com", strL "pw", strL "hi"⟩
              ⟨[(strL "Sent/old.pdf", 7)], false, true⟩ 0
              ((strL "pay stub bob@example.com", PageOracle.dispatchFail) :: rest) =
            ((runPages ⟨strL "example", strL "2024-01-15", strL "hr@example.com", strL "pw",
                strL "hi"⟩ s' (0 + 1) rest).1,
              evs ++ (runPages ⟨strL "example", strL "2024-01-15", strL "hr@example.com",
                strL "pw", strL "hi"⟩ s' (0 + 1) rest).2.1,
              (runPages ⟨strL "example", strL "2024-01-15", strL "hr@example.com", strL "pw",
                strL "hi"⟩ s' (0 + 1) rest).2.2)) :=
  ⟨by decide, by decide,
    spec_c3 ⟨strL "example", strL "2024-01-15", strL "hr@example.com", strL "pw", strL "hi"⟩
      ⟨[(strL "Sent/old.pdf", 7)], false, true⟩ 0 (strL "pay stub bob@example.com")
      (strL "bob@example.com") (strL "bob") (by decide) (by decide)⟩

/-! ## Further unfolding lemmas for `send_email` and `stepPage` -/

theorem send_email_dispatchFail_eq (cfg : Cfg) (s : St) (receiver path : Name) :
    send_email cfg s receiver path PageOracle.dispatchFail =
      ({ s with sentDir := true },
        (if s.sentDir then [] else [Ev.mkdirSentDir]) ++
          [Ev.session (strL "smtp.gmail.com") 465 true cfg.sender cfg.password], false) := rfl

theorem send_email_filingFail_eq (cfg : Cfg) (s : St) (receiver path : Name) :
    send_email cfg s receiver path PageOracle.filingFail =
      ({ s with sentDir := true },
        (if s.sentDir then [] else [Ev.mkdirSentDir]) ++
          [Ev.session (strL "smtp.gmail.com") 465 true cfg.sender cfg.password,
            Ev.msgSent (builtMsg cfg { s with sentDir := true } receiver path)], false) := rfl

theorem send_email_ok_none_eq (cfg : Cfg) (s : St) (receiver path : Name)
    (h : resolveSentName s.fs (lastDotSplit (basenameL path)).1
      (lastDotSplit (basenameL path)).2 = none) :
    send_email cfg s receiver path PageOracle.ok =
      ({ s with sentDir := true },
        (if s.sentDir then [] else [Ev.mkdirSentDir]) ++
          [Ev.session (strL "smtp.gmail.com") 465 true cfg.sender cfg.password,
            Ev.msgSent (builtMsg cfg { s with sentDir := true } receiver path)], false) := by
  unfold send_email
  dsimp only
  rw [h]

theorem send_email_ok_some_eq (cfg : Cfg) (s : St) (receiver path final : Name)
    (h : resolveSentName s.fs (lastDotSplit (basenameL path)).1
      (lastDotSplit (basenameL path)).2 = some final) :
    send_email cfg s receiver path PageOracle.ok =
      ({ fs := fsRename s.fs path (sentRoot ++ final), sentDir := true,
          failedDir := s.failedDir },
        (if s.sentDir then [] else [Ev.mkdirSentDir]) ++
          [Ev.session (strL "smtp.gmail.com") 465 true cfg.sender cfg.password,
            Ev.msgSent (builtMsg cfg { s with sentDir := true } receiver path)], true) := by
  unfold send_email
  dsimp only
  rw [h]

theorem send_email_splitFail_none_eq (cfg : Cfg) (s : St) (receiver path : Name)
    (h : resolveSentName s.fs (lastDotSplit (basenameL path)).1
      (lastDotSplit (basenameL path)).2 = none) :
    send_email cfg s receiver path PageOracle.splitFail =
      ({ s with sentDir := true },
        (if s.sentDir then [] else [Ev.mkdirSentDir]) ++
          [Ev.session (strL "smtp.gmail.com") 465 true cfg.sender cfg.password,
            Ev.msgSent (builtMsg cfg { s with sentDir := true } receiver path)], false) := by
  unfold send_email
  dsimp only
  rw [h]

theorem send_email_splitFail_some_eq (cfg : Cfg) (s : St) (receiver path final : Name)
    (h : resolveSentName s.fs (lastDotSplit (basenameL path)).1
      (lastDotSplit (basenameL path)).2 = some final) :
    send_email cfg s receiver path PageOracle.splitFail =
      ({ fs := fsRename s.fs path (sentRoot ++ final), sentDir := true,
          failedDir := s.failedDir },
        (if s.sentDir then [] else [Ev.mkdirSentDir]) ++
          [Ev.session (strL "smtp.gmail.com") 465 true cfg.sender cfg.password,
            Ev.msgSent (builtMsg cfg { s with sentDir := true } receiver path)], true) := by
  unfold send_email
  dsimp only
  rw [h]

theorem stepPage_filingFail_eq (cfg : Cfg) (s : St) (idx : Nat) (text addr ident : Name)
    (h : extract cfg.domain text = some (addr, ident)) :
    stepPage cfg s idx text PageOracle.filingFail =
      StepRes.next
        { fs := fsRename (fsSet s.fs (cfg.date ++ sepL ++ ident ++ strL ".pdf") idx)
            (cfg.date ++ sepL ++ ident ++ strL ".pdf")
            (failedRoot ++ (cfg.date ++ sepL ++ ident ++ strL ".pdf")),
          sentDir := true, failedDir := s.failedDir }
        (Ev.artifactSaved (cfg.date ++ sepL ++ ident ++ strL ".pdf") idx ::
          ((if s.sentDir then [] else [Ev.mkdirSentDir]) ++
            [Ev.session (strL "smtp.gmail.com") 465 true cfg.sender cfg.password,
              Ev.msgSent (builtMsg cfg
                { fs := fsSet s.fs (cfg.date ++ sepL ++ ident ++ strL ".pdf") idx,
                  sentDir := true, failedDir := s.failedDir } addr
                (cfg.date ++ sepL ++ ident ++ strL ".pdf"))]) ++
          [Ev.failedLog addr]) := by
  unfold stepPage
  rw [h]
  rfl

theorem stepPage_ok_none_eq (cfg : Cfg) (s : St) (idx : Nat) (text addr ident : Name)
    (hx : extract cfg.domain text = some (addr, ident))
    (hres : resolveSentName (fsSet s.fs (cfg.date ++ sepL ++ ident ++ strL ".pdf") idx)
      (lastDotSplit (basenameL (cfg.date ++ sepL ++ ident ++ strL ".pdf"))).1
      (lastDotSplit (basenameL (cfg.date ++ sepL ++ ident ++ strL ".pdf"))).2 = none) :
    stepPage cfg s idx text PageOracle.ok =
      StepRes.next
        { fs := fsRename (fsSet s.fs (cfg.date ++ sepL ++ ident ++ strL ".pdf") idx)
            (cfg.date ++ sepL ++ ident ++ strL ".pdf")
            (failedRoot ++ (cfg.date ++ sepL ++ ident ++ strL ".pdf")),
          sentDir := true, failedDir := s.failedDir }
        (Ev.artifactSaved (cfg.date ++ sepL ++ ident ++ strL ".pdf") idx ::
          ((if s.sentDir then [] else [Ev.mkdirSentDir]) ++
            [Ev.session (strL "smtp.gmail.com") 465 true cfg.sender cfg.password,
              Ev.msgSent (builtMsg cfg
                { fs := fsSet s.fs (cfg.date ++ sepL ++ ident ++ strL ".pdf") idx,
                  sentDir := true, failedDir := s.failedDir } addr
                (cfg.date ++ sepL ++ ident ++ strL ".pdf"))]) ++
          [Ev.failedLog addr]) := by
  unfold stepPage
  rw [hx]
  show (if (send_email cfg _ addr _ PageOracle.ok).2.2 then _ else _) = _
  rw [send_email_ok_none_eq cfg
    { fs := fsSet s.fs (cfg.date ++ sepL ++ ident ++ strL ".pdf") idx,
      sentDir := s.sentDir, failedDir := s.failedDir } addr
    (cfg.date ++ sepL ++ ident ++ strL ".pdf") hres]
  rfl

theorem stepPage_ok_some_eq (cfg : Cfg) (s : St) (idx : Nat) (text addr ident final : Name)
    (hx : extract cfg.domain text = some (addr, ident))
    (hres : resolveSentName (fsSet s.fs (cfg.date ++ sepL ++ ident ++ strL ".pdf") idx)
      (lastDotSplit (basenameL (cfg.date ++ sepL ++ ident ++ strL ".pdf"))).1
      (lastDotSplit (basenameL (cfg.date ++ sepL ++ ident ++ strL ".pdf"))).2 = some final) :
    stepPage cfg s idx text PageOracle.ok =
      StepRes.next
        { fs := fsRename (fsSet s.fs (cfg.date ++ sepL ++ ident ++ strL ".pdf") idx)
            (cfg.date ++ sepL ++ ident ++ strL ".pdf") (sentRoot ++ final),
          sentDir := true, failedDir := s.failedDir }
        (Ev.artifactSaved (cfg.date ++ sepL ++ ident ++ strL ".pdf") idx ::
          ((if s.sentDir then [] else [Ev.mkdirSentDir]) ++
            [Ev.session (strL "smtp.gmail.com") 465 true cfg.sender cfg.password,
              Ev.msgSent (builtMsg cfg
                { fs := fsSet s.fs (cfg.date ++ sepL ++ ident ++ strL ".pdf") idx,
                  sentDir := true, failedDir := s.failedDir } addr
                (cfg.date ++ sepL ++ ident ++ strL ".pdf"))]) ++
          [Ev.sentLog addr]) := by
  unfold stepPage
  rw [hx]
  show (if (send_email cfg _ addr _ PageOracle.ok).2.2 then _ else _) = _
  rw [send_email_ok_some_eq cfg
    { fs := fsSet s.fs (cfg.date ++ sepL ++ ident ++ strL ".pdf") idx,
      sentDir := s.sentDir, failedDir := s.failedDir } addr
    (cfg.date ++ sepL ++ ident ++ strL ".pdf") final hres]
  rfl

/-! ## C4: splitting failure is not page-local -/

/-- C4 counterexample: a two-page run whose first page matches but whose
artifact creation fails, and whose second page would match and dispatch
successfully.  The claim says the failure is logged, page-local, and that the
pipeline continues with the next page; instead the run aborts with no log
event, the second page is never processed (the final filesystem is empty and
the run flag is `false`), and the document is never closed. -/
theorem spec_c4_counterexample :
    process_pay_stubs ⟨strL "dom", strL "2024-01-15", strL "me@x.com", strL "pw", strL ""⟩
        ⟨[], false, false⟩
        [(strL "a@dom.com", PageOracle.splitFail), (strL "b@dom.com", PageOracle.ok)] =
      (⟨[], false, true⟩, [Ev.mkdirFailedDir, Ev.docOpened], false) := by decide

/-- C4 amended: a splitting (artifact-creation) failure is not handled at
all: the exception propagates out of the page loop, so the step aborts with
the state unchanged (the Filer is not invoked, nothing is logged) and no
subsequent page of the document is processed. -/
theorem spec_c4_amended (cfg : Cfg) (s : St) (idx : Nat) (text : Name) (ai : Name × Name)
    (hx : extract cfg.domain text = some ai) :
    stepPage cfg s idx text PageOracle.splitFail = StepRes.abort s [] ∧
    ∀ rest, runPages cfg s idx ((text, PageOracle.splitFail) :: rest) = (s, [], false) := by
  have hstep := stepPage_splitFail_eq cfg s idx text ai hx
  exact ⟨hstep, fun rest => runPages_cons_abort cfg s idx text PageOracle.splitFail rest s [] hstep⟩

/-- Witness for the amended C4 at a concrete matching page. -/
theorem spec_c4_amended_witness :
    extract (strL "dom") (strL "a@dom.com") = some (strL "a@dom.com", strL "a") ∧
    (stepPage ⟨strL "dom", strL "2024-01-15", strL "me@x.com", strL "pw", strL ""⟩
        ⟨[], false, true⟩ 0 (strL "a@dom.com") PageOracle.splitFail =
      StepRes.abort ⟨[], false, true⟩ [] ∧
    ∀ rest,
      runPages ⟨strL "dom", strL "2024-01-15", strL "me@x.com", strL "pw", strL ""⟩
          ⟨[], false, true⟩ 0 ((strL "a@dom.com", PageOracle.splitFail) :: rest) =
        (⟨[], false, true⟩, [], false)) :=
  ⟨by decide,
    spec_c4_amended ⟨strL "dom", strL "2024-01-15", strL "me@x.com", strL "pw", strL ""⟩
      ⟨[], false, true⟩ 0 (strL "a@dom.com") (strL "a@dom.com", strL "a") (by decide)⟩

/-! ## C5: a filing failure after successful dispatch is caught and re-routed -/

/-- C5 counterexample: a one-page run whose dispatch succeeds (exactly one
message-sent event) but whose filing rename fails.  The claim says the run
must stop and that a dispatched artifact is never placed in the failed
directory because filing failed; instead the page-level handler catches the
filing error, the artifact lands in `Failed to Send`, and the run completes
normally (document closed, completion flag `true`). -/
theorem spec_c5_counterexample :
    (process_pay_stubs ⟨strL "dom", strL "2024-01-15", strL "me@x.com", strL "pw", strL ""⟩
        ⟨[], false, false⟩ [(strL "a@dom.com", PageOracle.filingFail)]).2.2 = true ∧
    fsGet (process_pay_stubs ⟨strL "dom", strL "2024-01-15", strL "me@x.com", strL "pw", strL ""⟩
        ⟨[], false, false⟩ [(strL "a@dom.com", PageOracle.filingFail)]).1.fs
      (failedRoot ++ strL "2024-01-15 - a.pdf") = some 0 ∧
    (process_pay_stubs ⟨strL "dom", strL "2024-01-15", strL "me@x.com", strL "pw", strL ""⟩
        ⟨[], false, false⟩ [(strL "a@dom.com", PageOracle.filingFail)]).2.1.countP
      isMsgSentEv = 1 ∧
    (process_pay_stubs ⟨strL "dom", strL "2024-01-15", strL "me@x.com", strL "pw", strL ""⟩
        ⟨[], false, false⟩ [(strL "a@dom.com", PageOracle.filingFail)]).2.1.countP
      isDocClosedEv = 1 := by decide

/-- C5 amended: when filing a successfully dispatched artifact fails, the
page-level `except Exception` handler catches the failure and re-routes the
artifact: the step continues (no abort), exactly one message was sent, the
artifact ends up in `Failed to Send` and not in the working directory, the
`Sent` directory is unchanged, and the loop proceeds with the remaining
pages. -/
theorem spec_c5_amended (cfg : Cfg) (s : St) (idx : Nat) (text addr ident : Name)
    (hx : extract cfg.domain text = some (addr, ident))
    (hdate : ('/' : Char) ∉ cfg.date) :
    ∃ s' evs,
      stepPage cfg s idx text PageOracle.filingFail = StepRes.next s' evs ∧
      evs.countP isMsgSentEv = 1 ∧
      fsGet s'.fs (failedRoot ++ (cfg.date ++ sepL ++ ident ++ strL ".pdf")) = some idx ∧
      fsGet s'.fs (cfg.date ++ sepL ++ ident ++ strL ".pdf") = none ∧
      (∀ q, fsGet s'.fs (sentRoot ++ q) = fsGet s.fs (sentRoot ++ q)) ∧
      (∀ rest, runPages cfg s idx ((text, PageOracle.filingFail) :: rest) =
        ((runPages cfg s' (idx + 1) rest).1,
          evs ++ (runPages cfg s' (idx + 1) rest).2.1,
          (runPages cfg s' (idx + 1) rest).2.2)) := by
  have hstep := stepPage_filingFail_eq cfg s idx text addr ident hx
  have hns : ('/' : Char) ∉ cfg.date ++ sepL ++ ident ++ strL ".pdf" :=
    artifact_name_no_slash cfg.date ident hdate (extract_ident_localChar _ _ _ _ hx)
  set name := cfg.date ++ sepL ++ ident ++ strL ".pdf" with hname
  have hget : fsGet (fsSet s.fs name idx) name = some idx := fsGet_fsSet_self _ _ _
  have hren : fsRename (fsSet s.fs name idx) name (failedRoot ++ name) =
      fsSet (fsErase (fsSet s.fs name idx) name) (failedRoot ++ name) idx :=
    fsRename_of_get _ _ _ _ hget
  refine ⟨_, _, hstep, ?_, ?_, ?_, ?_, ?_⟩
  · cases s.sentDir <;>
      simp [List.countP_cons, List.countP_append, isMsgSentEv]
  · show fsGet (fsRename (fsSet s.fs name idx) name (failedRoot ++ name))
        (failedRoot ++ name) = some idx
    rw [hren]
    exact fsGet_fsSet_self _ _ _
  · show fsGet (fsRename (fsSet s.fs name idx) name (failedRoot ++ name)) name = none
    rw [hren, fsGet_fsSet_ne _ _ _ _ (no_slash_ne_failedRoot_app name name hns)]
    exact fsGet_fsErase_self _ _
  · intro q
    show fsGet (fsRename (fsSet s.fs name idx) name (failedRoot ++ name)) (sentRoot ++ q) =
      fsGet s.fs (sentRoot ++ q)
    rw [hren,
      fsGet_fsSet_ne _ _ _ _ (fun hc => failedRoot_app_ne_sentRoot_app name q hc.symm),
      fsGet_fsErase_ne _ _ _ (fun hc => no_slash_ne_sentRoot_app name q hns hc.symm),
      fsGet_fsSet_ne _ _ _ _ (fun hc => no_slash_ne_sentRoot_app name q hns hc.symm)]
  · intro rest
    exact runPages_cons_next cfg s idx text PageOracle.filingFail rest _ _ hstep

/-- Witness for the amended C5 at a concrete page. -/
theorem spec_c5_amended_witness :
    extract (strL "dom") (strL "x a@dom.com") = some (strL "a@dom.com", strL "a") ∧
      ('/' : Char) ∉ strL "2024-01-15" ∧
      ∃ s' evs,
        stepPage ⟨strL "dom", strL "2024-01-15", strL "me@x.com", strL "pw", strL ""⟩
            ⟨[], false, true⟩ 0 (strL "x a@dom.com") PageOracle.filingFail =
          StepRes.next s' evs ∧
        evs.countP isMsgSentEv = 1 ∧
        fsGet s'.fs (failedRoot ++ (strL "2024-01-15" ++ sepL ++ strL "a" ++ strL ".pdf")) =
          some 0 ∧
        fsGet s'.fs (strL "2024-01-15" ++ sepL ++ strL "a" ++ strL ".pdf") = none ∧
        (∀ q, fsGet s'.fs (sentRoot ++ q) = fsGet ([] : Fs) (sentRoot ++ q)) ∧
        (∀ rest,
          runPages ⟨strL "dom", strL "2024-01-15", strL "me@x.com", strL "pw", strL ""⟩
              ⟨[], false, true⟩ 0 ((strL "x a@dom.com", PageOracle.filingFail) :: rest) =
            ((runPages ⟨strL "dom", strL "2024-01-15", strL "me@x.com", strL "pw", strL ""⟩
                s' (0 + 1) rest).1,
              evs ++ (runPages ⟨strL "dom", strL "2024-01-15", strL "me@x.com", strL "pw",
                strL ""⟩ s' (0 + 1) rest).2.1,
              (runPages ⟨strL "dom", strL "2024-01-15", strL "me@x.com", strL "pw", strL ""⟩
                s' (0 + 1) rest).2.2)) :=
  ⟨by decide, by decide,
    spec_c5_amended ⟨strL "dom", strL "2024-01-15", strL "me@x.com", strL "pw", strL ""⟩
      ⟨[], false, true⟩ 0 (strL "x a@dom.com") (strL "a@dom.com") (strL "a")
      (by decide) (by decide)⟩

/-! ## C6: pages without a matching address are skipped -/

/-- C6: on every page whose text has no matching address, the step only logs
the skip: the state (and hence the filesystem: no artifact) is unchanged, the
only event is the skip log (in particular no SMTP session and no message),
and the loop proceeds with the remaining pages with no error recorded. -/
theorem spec_c6 (cfg : Cfg) (s : St) (idx : Nat) (text : Name) (o : PageOracle)
    (h : extract cfg.domain text = none) :
    stepPage cfg s idx text o = StepRes.next s [Ev.skippedLog idx] ∧
    ([Ev.skippedLog idx] : List Ev).countP isSessionEv = 0 ∧
    ([Ev.skippedLog idx] : List Ev).countP isMsgSentEv = 0 ∧
    ∀ rest, runPages cfg s idx ((text, o) :: rest) =
      ((runPages cfg s (idx + 1) rest).1,
        Ev.skippedLog idx :: (runPages cfg s (idx + 1) rest).2.1,
        (runPages cfg s (idx + 1) rest).2.2) := by
  have hstep := stepPage_of_no_match cfg s idx text o h
  refine ⟨hstep, by simp [List.countP_cons, isSessionEv], by simp [List.countP_cons, isMsgSentEv], ?_⟩
  intro rest
  simpa using runPages_cons_next cfg s idx text o rest _ _ hstep

/-- Witness for C6 at a concrete page with no matching address. -/
theorem spec_c6_witness :
    extract (strL "dom") (strL "no address here") = none ∧
    (stepPage ⟨strL "dom", strL "2024-01-15", strL "me@x.com", strL "pw", strL ""⟩
        ⟨[], true, true⟩ 4 (strL "no address here") PageOracle.ok =
      StepRes.next ⟨[], true, true⟩ [Ev.skippedLog 4] ∧
    ([Ev.skippedLog 4] : List Ev).countP isSessionEv = 0 ∧
    ([Ev.skippedLog 4] : List Ev).countP isMsgSentEv = 0 ∧
    ∀ rest,
      runPages ⟨strL "dom", strL "2024-01-15", strL "me@x.com", strL "pw", strL ""⟩
          ⟨[], true, true⟩ 4 ((strL "no address here", PageOracle.ok) :: rest) =
        ((runPages ⟨strL "dom", strL "2024-01-15", strL "me@x.com", strL "pw", strL ""⟩
            ⟨[], true, true⟩ (4 + 1) rest).1,
          Ev.skippedLog 4 :: (runPages ⟨strL "dom", strL "2024-01-15", strL "me@x.com",
            strL "pw", strL ""⟩ ⟨[], true, true⟩ (4 + 1) rest).2.1,
          (runPages ⟨strL "dom", strL "2024-01-15", strL "me@x.com", strL "pw", strL ""⟩
            ⟨[], true, true⟩ (4 + 1) rest).2.2)) :=
  ⟨by decide,
    spec_c6 ⟨strL "dom", strL "2024-01-15", strL "me@x.com", strL "pw", strL ""⟩
      ⟨[], true, true⟩ 4 (strL "no address here") PageOracle.ok (by decide)⟩

/-! ## C7: the source document handle -/

theorem stepPage_no_doc (cfg : Cfg) (s : St) (idx : Nat) (text : Name) (o : PageOracle) :
    (stepPage cfg s idx text o).events.countP isDocOpenedEv = 0 ∧
    (stepPage cfg s idx text o).events.countP isDocClosedEv = 0 := by
  cases hx : extract cfg.domain text with
  | none =>
    rw [stepPage_of_no_match cfg s idx text o hx]
    simp [StepRes.events, List.countP_cons, isDocOpenedEv, isDocClosedEv]
  | some ai =>
    obtain ⟨a, b⟩ := ai
    cases o with
    | splitFail =>
      rw [stepPage_splitFail_eq cfg s idx text (a, b) hx]
      simp [StepRes.events]
    | dispatchFail =>
      rw [stepPage_dispatchFail_eq cfg s idx text a b hx]
      cases s.sentDir <;>
        simp [StepRes.events, List.countP_cons, List.countP_append,
          isDocOpenedEv, isDocClosedEv]
    | filingFail =>
      rw [stepPage_filingFail_eq cfg s idx text a b hx]
      cases s.sentDir <;>
        simp [StepRes.events, List.countP_cons, List.countP_append,
          isDocOpenedEv, isDocClosedEv]
    | ok =>
      cases hres : resolveSentName (fsSet s.fs (cfg.date ++ sepL ++ b ++ strL ".pdf") idx)
          (lastDotSplit (basenameL (cfg.date ++ sepL ++ b ++ strL ".pdf"))).1
          (lastDotSplit (basenameL (cfg.date ++ sepL ++ b ++ strL ".pdf"))).2 with
      | none =>
        rw [stepPage_ok_none_eq cfg s idx text a b hx hres]
        cases s.sentDir <;>
          simp [StepRes.events, List.countP_cons, List.countP_append,
            isDocOpenedEv, isDocClosedEv]
      | some f =>
        rw [stepPage_ok_some_eq cfg s idx text a b f hx hres]
        cases s.sentDir <;>
          simp [StepRes.events, List.countP_cons, List.countP_append,
            isDocOpenedEv, isDocClosedEv]

theorem runPages_no_doc (cfg : Cfg) :
    ∀ (pages : List (Name × PageOracle)) (s : St) (i : Nat),
      (runPages cfg s i pages).2.1.countP isDocOpenedEv = 0 ∧
      (runPages cfg s i pages).2.1.countP isDocClosedEv = 0 := by
  intro pages
  induction pages with
  | nil => intro s i; simp [runPages]
  | cons p rest ih =>
    intro s i
    obtain ⟨text, o⟩ := p
    obtain ⟨hso, hsc⟩ := stepPage_no_doc cfg s i text o
    cases hstep : stepPage cfg s i text o with
    | next s' evs =>
      rw [hstep] at hso hsc
      simp only [StepRes.events] at hso hsc
      rw [runPages_cons_next cfg s i text o rest s' evs hstep]
      obtain ⟨iho, ihc⟩ := ih s' (i + 1)
      simp [List.countP_append, hso, hsc, iho, ihc]
    | abort s' evs =>
      rw [hstep] at hso hsc
      simp only [StepRes.events] at hso hsc
      rw [runPages_cons_abort cfg s i text o rest s' evs hstep]
      exact ⟨hso, hsc⟩

/-- C7 counterexample: a one-page run whose artifact creation fails.  The
claim says the document is closed exactly once on every exit path including
early termination; instead on this aborting run the document is opened but
never closed. -/
theorem spec_c7_counterexample :
    (process_pay_stubs ⟨strL "dom", strL "2024-01-15", strL "me@x.com", strL "pw", strL ""⟩
        ⟨[], false, false⟩ [(strL "a@dom.com", PageOracle.splitFail)]).2.1.countP
      isDocOpenedEv = 1 ∧
    (process_pay_stubs ⟨strL "dom", strL "2024-01-15", strL "me@x.com", strL "pw", strL ""⟩
        ⟨[], false, false⟩ [(strL "a@dom.com", PageOracle.splitFail)]).2.1.countP
      isDocClosedEv = 0 ∧
    (process_pay_stubs ⟨strL "dom", strL "2024-01-15", strL "me@x.com", strL "pw", strL ""⟩
        ⟨[], false, false⟩ [(strL "a@dom.com", PageOracle.splitFail)]).2.2 = false := by
  decide

/-- C7 amended: the source document is opened exactly once, before the page
loop; it is closed exactly once when the loop runs to completion, and it is
not closed at all when an unhandled error aborts the loop (there is no
`try/finally` around it). -/
theorem spec_c7_amended (cfg : Cfg) (s0 : St) (pages : List (Name × PageOracle)) :
    (process_pay_stubs cfg s0 pages).2.1.countP isDocOpenedEv = 1 ∧
    ((process_pay_stubs cfg s0 pages).2.2 = true →
      (process_pay_stubs cfg s0 pages).2.1.countP isDocClosedEv = 1) ∧
    ((process_pay_stubs cfg s0 pages).2.2 = false →
      (process_pay_stubs cfg s0 pages).2.1.countP isDocClosedEv = 0) := by
  obtain ⟨hno, hnc⟩ := runPages_no_doc cfg pages { s0 with failedDir := true } 0
  unfold process_pay_stubs
  dsimp only
  cases hb : (runPages cfg { s0 with failedDir := true } 0 pages).2.2 with
  | false =>
    cases s0.failedDir <;>
      simp [List.countP_cons, List.countP_append, isDocOpenedEv, isDocClosedEv, hno, hnc]
  | true =>
    cases s0.failedDir <;>
      simp [List.countP_cons, List.countP_append, isDocOpenedEv, isDocClosedEv, hno, hnc]

/-- Witness for the amended C7 on a completing run and an aborting run. -/
theorem spec_c7_amended_witness :
    ((process_pay_stubs ⟨strL "dom", strL "2024-01-15", strL "me@x.com", strL "pw", strL ""⟩
        ⟨[], true, true⟩ [(strL "a@dom.com", PageOracle.ok)]).2.2 = true ∧
      (process_pay_stubs ⟨strL "dom", strL "2024-01-15", strL "me@x.com", strL "pw", strL ""⟩
        ⟨[], true, true⟩ [(strL "a@dom.com", PageOracle.ok)]).2.1.countP isDocClosedEv = 1) ∧
    ((process_pay_stubs ⟨strL "dom", strL "2024-01-15", strL "me@x.com", strL "pw", strL ""⟩
        ⟨[], true, true⟩ [(strL "b@dom.com", PageOracle.splitFail)]).2.2 = false ∧
      (process_pay_stubs ⟨strL "dom", strL "2024-01-15", strL "me@x.com", strL "pw", strL ""⟩
        ⟨[], true, true⟩ [(strL "b@dom.com", PageOracle.splitFail)]).2.1.countP
        isDocClosedEv = 0) :=
  ⟨⟨by decide,
      (spec_c7_amended ⟨strL "dom", strL "2024-01-15", strL "me@x.com", strL "pw", strL ""⟩
        ⟨[], true, true⟩ [(strL "a@dom.com", PageOracle.ok)]).2.1 (by decide)⟩,
    ⟨by decide,
      (spec_c7_amended ⟨strL "dom", strL "2024-01-15", strL "me@x.com", strL "pw", strL ""⟩
        ⟨[], true, true⟩ [(strL "b@dom.com", PageOracle.splitFail)]).2.2 (by decide)⟩⟩

/-! ## C8: the Dispatcher -/

theorem basenameL_of_no_slash (p : Name) (h : ('/' : Char) ∉ p) : basenameL p = p := by
  unfold basenameL
  rw [List.takeWhile_eq_self_iff.2 ?_, List.reverse_reverse]
  intro c hc
  have hcp : c ∈ p := List.mem_reverse.1 hc
  have hne : c ≠ '/' := fun hcc => h (hcc ▸ hcp)
  simp [hne]

/-- C8: every call of the Dispatcher opens exactly one transport session
(none is shared across calls), always to `smtp.gmail.com` on port 465 with
implicit TLS and the supplied credentials; every message it sends has subject
`"Pay Stub"`, the supplied sender as `From`, the given receiver as the sole
recipient, the supplied body, and exactly one `application/pdf` attachment
named after the artifact's basename and carrying the artifact's bytes.  In
the pipeline, the receiver is the extracted address and the attachment is the
page's artifact. -/
theorem spec_c8 :
    (∀ (cfg : Cfg) (s : St) (receiver path : Name) (o : PageOracle),
      (send_email cfg s receiver path o).2.1.countP isSessionEv = 1 ∧
      (∀ host port tls user pw,
        Ev.session host port tls user pw ∈ (send_email cfg s receiver path o).2.1 →
        host = strL "smtp.gmail.com" ∧ port = 465 ∧ tls = true ∧
          user = cfg.sender ∧ pw = cfg.password) ∧
      (∀ m, Ev.msgSent m ∈ (send_email cfg s receiver path o).2.1 →
        m.subject = strL "Pay Stub" ∧ m.fromAddr = cfg.sender ∧ m.toAddrs = [receiver] ∧
        m.body = cfg.body ∧
        m.attachments = [{ filename := basenameL path, maintype := strL "application",
                           subtype := strL "pdf", content := (fsGet s.fs path).getD 0 }])) ∧
    (∀ (cfg : Cfg) (s : St) (idx : Nat) (text addr ident : Name) (o : PageOracle)
        (s' : St) (evs : List Ev),
      extract cfg.domain text = some (addr, ident) →
      ('/' : Char) ∉ cfg.date →
      stepPage cfg s idx text o = StepRes.next s' evs →
      ∀ m, Ev.msgSent m ∈ evs →
        m.toAddrs = [addr] ∧
        m.attachments = [{ filename := cfg.date ++ sepL ++ ident ++ strL ".pdf",
                           maintype := strL "application", subtype := strL "pdf", content := idx }]) := by
  have partA : ∀ (cfg : Cfg) (s : St) (receiver path : Name) (o : PageOracle),
      (send_email cfg s receiver path o).2.1.countP isSessionEv = 1 ∧
      (∀ host port tls user pw,
        Ev.session host port tls user pw ∈ (send_email cfg s receiver path o).2.1 →
        host = strL "smtp.gmail.com" ∧ port = 465 ∧ tls = true ∧
          user = cfg.sender ∧ pw = cfg.password) ∧
      (∀ m, Ev.msgSent m ∈ (send_email cfg s receiver path o).2.1 →
        m.subject = strL "Pay Stub" ∧ m.fromAddr = cfg.sender ∧ m.toAddrs = [receiver] ∧
        m.body = cfg.body ∧
        m.attachments = [{ filename := basenameL path, maintype := strL "application",
                           subtype := strL "pdf", content := (fsGet s.fs path).getD 0 }]) := by
    intro cfg s receiver path o
    have hmsg : ∀ m, m = builtMsg cfg { s with sentDir := true } receiver path →
        m.subject = strL "Pay Stub" ∧ m.fromAddr = cfg.sender ∧ m.toAddrs = [receiver] ∧
        m.body = cfg.body ∧
        m.attachments = [{ filename := basenameL path, maintype := strL "application",
                           subtype := strL "pdf", content := (fsGet s.fs path).getD 0 }] := by
      rintro m rfl
      simp [builtMsg]
    cases o with
    | dispatchFail =>
      rw [send_email_dispatchFail_eq]
      refine ⟨?_, ?_, ?_⟩
      · cases s.sentDir <;> simp [List.countP_append, List.countP_cons, isSessionEv]
      · intro host port tls user pw hmem
        cases s.sentDir <;> simp [List.mem_cons] at hmem <;> tauto
      · intro m hm
        cases s.sentDir <;> simp [List.mem_cons] at hm
    | filingFail =>
      rw [send_email_filingFail_eq]
      refine ⟨?_, ?_, ?_⟩
      · cases s.sentDir <;> simp [List.countP_append, List.countP_cons, isSessionEv]
      · intro host port tls user pw hmem
        cases s.sentDir <;> simp [List.mem_cons] at hmem <;> tauto
      · intro m hm
        cases s.sentDir <;> simp [List.mem_cons] at hm <;> exact hmsg m hm
    | splitFail =>
      cases hres : resolveSentName s.fs (lastDotSplit (basenameL path)).1
          (lastDotSplit (basenameL path)).2 with
      | none =>
        rw [send_email_splitFail_none_eq cfg s receiver path hres]
        refine ⟨?_, ?_, ?_⟩
        · cases s.sentDir <;> simp [List.countP_append, List.countP_cons, isSessionEv]
        · intro host port tls user pw hmem
          cases s.sentDir <;> simp [List.mem_cons] at hmem <;> tauto
        · intro m hm
          cases s.sentDir <;> simp [List.mem_cons] at hm <;> exact hmsg m hm
      | some f =>
        rw [send_email_splitFail_some_eq cfg s receiver path f hres]
        refine ⟨?_, ?_, ?_⟩
        · cases s.sentDir <;> simp [List.countP_append, List.countP_cons, isSessionEv]
        · intro host port tls user pw hmem
          cases s.sentDir <;> simp [List.mem_cons] at hmem <;> tauto
        · intro m hm
          cases s.sentDir <;> simp [List.mem_cons] at hm <;> exact hmsg m hm
    | ok =>
      cases hres : resolveSentName s.fs (lastDotSplit (basenameL path)).1
          (lastDotSplit (basenameL path)).2 with
      | none =>
        rw [send_email_ok_none_eq cfg s receiver path hres]
        refine ⟨?_, ?_, ?_⟩
        · cases s.sentDir <;> simp [List.countP_append, List.countP_cons, isSessionEv]
        · intro host port tls user pw hmem
          cases s.sentDir <;> simp [List.mem_cons] at hmem <;> tauto
        · intro m hm
          cases s.sentDir <;> simp [List.mem_cons] at hm <;> exact hmsg m hm
      | some f =>
        rw [send_email_ok_some_eq cfg s receiver path f hres]
        refine ⟨?_, ?_, ?_⟩
        · cases s.sentDir <;> simp [List.countP_append, List.countP_cons, isSessionEv]
        · intro host port tls user pw hmem
          cases s.sentDir <;> simp [List.mem_cons] at hmem <;> tauto
        · intro m hm
          cases s.sentDir <;> simp [List.mem_cons] at hm <;> exact hmsg m hm
  refine ⟨partA, ?_⟩
  intro cfg s idx text addr ident o s' evs hx hdate hstep m hm
  have hns : ('/' : Char) ∉ cfg.date ++ sepL ++ ident ++ strL ".pdf" :=
    artifact_name_no_slash cfg.date ident hdate (extract_ident_localChar _ _ _ _ hx)
  have hns' : ('/' : Char) ∉ cfg.date ++ (sepL ++ (ident ++ strL ".pdf")) := by
    simpa [List.append_assoc] using hns
  have hfields : ∀ mm, mm = builtMsg cfg
      { fs := fsSet s.fs (cfg.date ++ (sepL ++ (ident ++ strL ".pdf"))) idx,
        sentDir := true, failedDir := s.failedDir } addr
      (cfg.date ++ (sepL ++ (ident ++ strL ".pdf"))) →
      mm.toAddrs = [addr] ∧
      mm.attachments = [{ filename := cfg.date ++ sepL ++ ident ++ strL ".pdf",
                          maintype := strL "application", subtype := strL "pdf", content := idx }] := by
    rintro mm rfl
    constructor
    · simp [builtMsg]
    · dsimp only [builtMsg]
      rw [fsGet_fsSet_self, basenameL_of_no_slash _ hns']
      simp [List.append_assoc]
  cases o with
  | splitFail =>
    rw [stepPage_splitFail_eq cfg s idx text (addr, ident) hx] at hstep
    cases hstep
  | dispatchFail =>
    rw [stepPage_dispatchFail_eq cfg s idx text addr ident hx] at hstep
    injection hstep with h1 h2
    subst h2
    cases s.sentDir <;> simp [List.mem_cons] at hm
  | filingFail =>
    rw [stepPage_filingFail_eq cfg s idx text addr ident hx] at hstep
    injection hstep with h1 h2
    subst h2
    cases s.sentDir <;> simp [List.mem_cons] at hm <;> exact hfields m hm
  | ok =>
    cases hres : resolveSentName (fsSet s.fs (cfg.date ++ sepL ++ ident ++ strL ".pdf") idx)
        (lastDotSplit (basenameL (cfg.date ++ sepL ++ ident ++ strL ".pdf"))).1
        (lastDotSplit (basenameL (cfg.date ++ sepL ++ ident ++ strL ".pdf"))).2 with
    | none =>
      rw [stepPage_ok_none_eq cfg s idx text addr ident hx hres] at hstep
      injection hstep with h1 h2
      subst h2
      cases s.sentDir <;> simp [List.mem_cons] at hm <;> exact hfields m hm
    | some f =>
      rw [stepPage_ok_some_eq cfg s idx text addr ident f hx hres] at hstep
      injection hstep with h1 h2
      subst h2
      cases s.sentDir <;> simp [List.mem_cons] at hm <;> exact hfields m hm

/-- Witness for C8: a concrete dispatch whose filing fails (so the message
was sent), checking the sent message's fields. -/
theorem spec_c8_witness :
    (Ev.msgSent ⟨strL "Pay Stub", strL "me@x.com", [strL "a@dom.com"], strL "hello",
        [⟨strL "2024-01-15 - a.pdf", strL "application", strL "pdf", 9⟩]⟩ ∈
      (send_email ⟨strL "dom", strL "2024-01-15", strL "me@x.com", strL "pw", strL "hello"⟩
        ⟨[(strL "2024-01-15 - a.pdf", 9)], false, true⟩ (strL "a@dom.com")
        (strL "2024-01-15 - a.pdf") PageOracle.filingFail).2.1) ∧
    ((⟨strL "Pay Stub", strL "me@x.com", [strL "a@dom.com"], strL "hello",
        [⟨strL "2024-01-15 - a.pdf", strL "application", strL "pdf", 9⟩]⟩ : EmailMsg).subject =
      strL "Pay Stub" ∧
    (⟨strL "Pay Stub", strL "me@x.com", [strL "a@dom.com"], strL "hello",
        [⟨strL "2024-01-15 - a.pdf", strL "application", strL "pdf", 9⟩]⟩ : EmailMsg).fromAddr =
      strL "me@x.com" ∧
    (⟨strL "Pay Stub", strL "me@x.com", [strL "a@dom.com"], strL "hello",
        [⟨strL "2024-01-15 - a.pdf", strL "application", strL "pdf", 9⟩]⟩ : EmailMsg).toAddrs =
      [strL "a@dom.com"] ∧
    (⟨strL "Pay Stub", strL "me@x.com", [strL "a@dom.com"], strL "hello",
        [⟨strL "2024-01-15 - a.pdf", strL "application", strL "pdf", 9⟩]⟩ : EmailMsg).body =
      strL "hello" ∧
    (⟨strL "Pay Stub", strL "me@x.com", [strL "a@dom.com"], strL "hello",
        [⟨strL "2024-01-15 - a.pdf", strL "application", strL "pdf", 9⟩]⟩ : EmailMsg).attachments =
      [{ filename := basenameL (strL "2024-01-15 - a.pdf"), maintype := strL "application",
          subtype := strL "pdf",
          content := (fsGet (⟨[(strL "2024-01-15 - a.pdf", 9)], false, true⟩ : St).fs
            (strL "2024-01-15 - a.pdf")).getD 0 }]) :=
  ⟨by decide,
    (spec_c8.1 ⟨strL "dom", strL "2024-01-15", strL "me@x.com", strL "pw", strL "hello"⟩
      ⟨[(strL "2024-01-15 - a.pdf", 9)], false, true⟩ (strL "a@dom.com")
      (strL "2024-01-15 - a.pdf") PageOracle.filingFail).2.2
      ⟨strL "Pay Stub", strL "me@x.com", [strL "a@dom.com"], strL "hello",
        [⟨strL "2024-01-15 - a.pdf", strL "application", strL "pdf", 9⟩]⟩ (by decide)⟩

/-! ## C9: creation of the tracked directories -/

theorem stepPage_failedDir (cfg : Cfg) (s : St) (idx : Nat) (text : Name) (o : PageOracle) :
    (stepPage cfg s idx text o).state.failedDir = s.failedDir := by
  cases hx : extract cfg.domain text with
  | none =>
    rw [stepPage_of_no_match cfg s idx text o hx]
    rfl
  | some ai =>
    obtain ⟨a, b⟩ := ai
    cases o with
    | splitFail =>
      rw [stepPage_splitFail_eq cfg s idx text (a, b) hx]
      rfl
    | dispatchFail =>
      rw [stepPage_dispatchFail_eq cfg s idx text a b hx]
      rfl
    | filingFail =>
      rw [stepPage_filingFail_eq cfg s idx text a b hx]
      rfl
    | ok =>
      cases hres : resolveSentName (fsSet s.fs (cfg.date ++ sepL ++ b ++ strL ".pdf") idx)
          (lastDotSplit (basenameL (cfg.date ++ sepL ++ b ++ strL ".pdf"))).1
          (lastDotSplit (basenameL (cfg.date ++ sepL ++ b ++ strL ".pdf"))).2 with
      | none =>
        rw [stepPage_ok_none_eq cfg s idx text a b hx hres]
        rfl
      | some f =>
        rw [stepPage_ok_some_eq cfg s idx text a b f hx hres]
        rfl

theorem runPages_failedDir (cfg : Cfg) :
    ∀ (pages : List (Name × PageOracle)) (s : St) (i : Nat),
      (runPages cfg s i pages).1.failedDir = s.failedDir := by
  intro pages
  induction pages with
  | nil => intro s i; rfl
  | cons p rest ih =>
    intro s i
    obtain ⟨text, o⟩ := p
    have hfd := stepPage_failedDir cfg s i text o
    cases hstep : stepPage cfg s i text o with
    | next s' evs =>
      rw [hstep] at hfd
      rw [runPages_cons_next cfg s i text o rest s' evs hstep]
      rw [ih s' (i + 1)]
      exact hfd
    | abort s' evs =>
      rw [hstep] at hfd
      rw [runPages_cons_abort cfg s i text o rest s' evs hstep]
      exact hfd

theorem runPages_all_skipped (cfg : Cfg) :
    ∀ (pages : List (Name × PageOracle)) (s : St) (i : Nat),
      (∀ p ∈ pages, extract cfg.domain p.1 = none) →
      (runPages cfg s i pages).1 = s := by
  intro pages
  induction pages with
  | nil => intro s i _; rfl
  | cons p rest ih =>
    intro s i hall
    obtain ⟨text, o⟩ := p
    have hx : extract cfg.domain text = none := hall (text, o) (List.mem_cons_self _ _)
    rw [runPages_cons_next cfg s i text o rest s [Ev.skippedLog i]
      (stepPage_of_no_match cfg s i text o hx)]
    exact ih s (i + 1) (fun q hq => hall q (List.mem_cons_of_mem _ hq))

/-- C9 counterexample: a run with no pages at all — so nothing is ever filed
and no page fails — still creates the `Failed to Send` directory, because
`process_pay_stubs` creates it unconditionally before opening the document. -/
theorem spec_c9_counterexample :
    (process_pay_stubs ⟨strL "dom", strL "2024-01-15", strL "me@x.com", strL "pw", strL ""⟩
        ⟨[], false, false⟩ []).1.failedDir = true ∧
    (process_pay_stubs ⟨strL "dom", strL "2024-01-15", strL "me@x.com", strL "pw", strL ""⟩
        ⟨[], false, false⟩ []).1.fs = [] ∧
    (process_pay_stubs ⟨strL "dom", strL "2024-01-15", strL "me@x.com", strL "pw", strL ""⟩
        ⟨[], false, false⟩ []).2.1 = [Ev.mkdirFailedDir, Ev.docOpened, Ev.docClosed] := by
  decide

/-- C9 amended: `Failed to Send` is created unconditionally at the start of
every run (before the page loop, first event when it was absent), not on
first filing; `Sent` is not created by runs that never attempt a dispatch,
but it is created at the start of every dispatch attempt — before the
outcome of the dispatch is known. -/
theorem spec_c9_amended :
    (∀ (cfg : Cfg) (s0 : St) (pages : List (Name × PageOracle)),
      (process_pay_stubs cfg s0 pages).1.failedDir = true) ∧
    (∀ (cfg : Cfg) (s0 : St) (pages : List (Name × PageOracle)),
      s0.failedDir = false →
      (process_pay_stubs cfg s0 pages).2.1.head? = some Ev.mkdirFailedDir) ∧
    (∀ (cfg : Cfg) (s0 : St) (pages : List (Name × PageOracle)),
      (∀ p ∈ pages, extract cfg.domain p.1 = none) →
      (process_pay_stubs cfg s0 pages).1.sentDir = s0.sentDir) ∧
    (∀ (cfg : Cfg) (s : St) (idx : Nat) (text : Name) (ai : Name × Name) (o : PageOracle)
        (s' : St) (evs : List Ev),
      extract cfg.domain text = some ai →
      stepPage cfg s idx text o = StepRes.next s' evs →
      s'.sentDir = true) := by
  refine ⟨?_, ?_, ?_, ?_⟩
  · intro cfg s0 pages
    unfold process_pay_stubs
    dsimp only
    have h := runPages_failedDir cfg pages { s0 with failedDir := true } 0
    cases (runPages cfg { s0 with failedDir := true } 0 pages).2.2 <;> simpa using h
  · intro cfg s0 pages h0
    unfold process_pay_stubs
    rw [h0]
    dsimp only
    cases (runPages cfg { s0 with failedDir := true } 0 pages).2.2 <;> simp
  · intro cfg s0 pages hall
    unfold process_pay_stubs
    dsimp only
    have h := runPages_all_skipped cfg pages { s0 with failedDir := true } 0 hall
    cases (runPages cfg { s0 with failedDir := true } 0 pages).2.2 <;> rw [h] <;> simp
  · intro cfg s idx text ai o s' evs hx hstep
    obtain ⟨a, b⟩ := ai
    cases o with
    | splitFail =>
      rw [stepPage_splitFail_eq cfg s idx text (a, b) hx] at hstep
      cases hstep
    | dispatchFail =>
      rw [stepPage_dispatchFail_eq cfg s idx text a b hx] at hstep
      injection hstep with h1 h2
      rw [← h1]
    | filingFail =>
      rw [stepPage_filingFail_eq cfg s idx text a b hx] at hstep
      injection hstep with h1 h2
      rw [← h1]
    | ok =>
      cases hres : resolveSentName (fsSet s.fs (cfg.date ++ sepL ++ b ++ strL ".pdf") idx)
          (lastDotSplit (basenameL (cfg.date ++ sepL ++ b ++ strL ".pdf"))).1
          (lastDotSplit (basenameL (cfg.date ++ sepL ++ b ++ strL ".pdf"))).2 with
      | none =>
        rw [stepPage_ok_none_eq cfg s idx text a b hx hres] at hstep
        injection hstep with h1 h2
        rw [← h1]
      | some f =>
        rw [stepPage_ok_some_eq cfg s idx text a b f hx hres] at hstep
        injection hstep with h1 h2
        rw [← h1]

/-- Witness for the amended C9: a run of one unmatched page keeps `Sent`
absent, and a concrete failing dispatch step creates `Sent`. -/
theorem spec_c9_amended_witness :
    ((∀ p ∈ [(strL "nothing here", PageOracle.ok)],
        extract (strL "dom") (p : Name × PageOracle).1 = none) ∧
      (process_pay_stubs ⟨strL "dom", strL "2024-01-15", strL "me@x.com", strL "pw", strL ""⟩
        ⟨[], false, false⟩ [(strL "nothing here", PageOracle.ok)]).1.sentDir = false) ∧
    (extract (strL "dom") (strL "a@dom.com") = some (strL "a@dom.com", strL "a") ∧
      stepPage ⟨strL "dom", strL "2024-01-15", strL "me@x.com", strL "pw", strL ""⟩
          ⟨[], false, true⟩ 0 (strL "a@dom.com") PageOracle.dispatchFail =
        StepRes.next
          ⟨[(strL "Failed to Send/2024-01-15 - a.pdf", 0)], true, true⟩
          [Ev.artifactSaved (strL "2024-01-15 - a.pdf") 0, Ev.mkdirSentDir,
            Ev.session (strL "smtp.gmail.com") 465 true (strL "me@x.com") (strL "pw"),
            Ev.failedLog (strL "a@dom.com")] ∧
      (⟨[(strL "Failed to Send/2024-01-15 - a.pdf", 0)], true, true⟩ : St).sentDir = true) :=
  ⟨⟨by decide,
      (spec_c9_amended.2.2.1
        ⟨strL "dom", strL "2024-01-15", strL "me@x.com", strL "pw", strL ""⟩
        ⟨[], false, false⟩ [(strL "nothing here", PageOracle.ok)] (by decide)).trans rfl⟩,
    ⟨by decide, by decide,
      spec_c9_amended.2.2.2
        ⟨strL "dom", strL "2024-01-15", strL "me@x.com", strL "pw", strL ""⟩
        ⟨[], false, true⟩ 0 (strL "a@dom.com") (strL "a@dom.com", strL "a")
        PageOracle.dispatchFail
        ⟨[(strL "Failed to Send/2024-01-15 - a.pdf", 0)], true, true⟩
        [Ev.artifactSaved (strL "2024-01-15 - a.pdf") 0, Ev.mkdirSentDir,
          Ev.session (strL "smtp.gmail.com") 465 true (strL "me@x.com") (strL "pw"),
          Ev.failedLog (strL "a@dom.com")] (by decide) (by decide)⟩⟩

/-! ## C10: the failed-path move has no collision avoidance -/

theorem ne_failedRoot_app_self (p : Name) : p ≠ failedRoot ++ p := by
  intro h
  have hlen := congrArg List.length h
  rw [List.length_append] at hlen
  have : failedRoot.length = 15 := rfl
  omega

/-- C10: `move_to_failed_send_folder` renames the artifact to the join of
`Failed to Send` with the artifact's path unchanged, with no existence check
and no collision loop: the moved content sits at exactly that joined path,
the source path is gone, any file previously at the joined path has been
replaced (its content is no longer present there) rather than a new name
being chosen, and all unrelated entries survive. -/
theorem spec_c10 (fs : Fs) (path : Name) (c : Nat) (hsrc : fsGet fs path = some c) :
    fsGet (move_to_failed_send_folder fs path) (failedRoot ++ path) = some c ∧
    fsGet (move_to_failed_send_folder fs path) path = none ∧
    (∀ cOld, cOld ≠ c →
      (failedRoot ++ path, cOld) ∉ move_to_failed_send_folder fs path) ∧
    (∀ e, e ∈ fs → e.1 ≠ path → e.1 ≠ failedRoot ++ path →
      e ∈ move_to_failed_send_folder fs path) := by
  have hmove : move_to_failed_send_folder fs path =
      fsSet (fsErase fs path) (failedRoot ++ path) c := by
    unfold move_to_failed_send_folder
    exact fsRename_of_get fs path (failedRoot ++ path) c hsrc
  refine ⟨?_, ?_, ?_, ?_⟩
  · rw [hmove]
    exact fsGet_fsSet_self _ _ _
  · rw [hmove, fsGet_fsSet_ne _ _ _ _ (ne_failedRoot_app_self path)]
    exact fsGet_fsErase_self _ _
  · intro cOld hne hmem
    rw [hmove] at hmem
    unfold fsSet at hmem
    rcases List.mem_cons.1 hmem with hmem | hmem
    · exact hne (congrArg Prod.snd hmem)
    · exact ((mem_fsErase _ _ _).1 hmem).2 rfl
  · intro e he hne1 hne2
    rw [hmove]
    unfold fsSet
    exact List.mem_cons_of_mem _
      ((mem_fsErase _ _ _).2 ⟨(mem_fsErase _ _ _).2 ⟨he, hne1⟩, hne2⟩)

/-- Witness for C10: the failed directory already holds a file of the same
name with different content; the move replaces it. -/
theorem spec_c10_witness :
    fsGet [(strL "x.pdf", 3), (strL "Failed to Send/x.pdf", 8)] (strL "x.pdf") = some 3 ∧
    (fsGet (move_to_failed_send_folder
        [(strL "x.pdf", 3), (strL "Failed to Send/x.pdf", 8)] (strL "x.pdf"))
      (failedRoot ++ strL "x.pdf") = some 3 ∧
    fsGet (move_to_failed_send_folder
        [(strL "x.pdf", 3), (strL "Failed to Send/x.pdf", 8)] (strL "x.pdf"))
      (strL "x.pdf") = none ∧
    (∀ cOld, cOld ≠ 3 →
      (failedRoot ++ strL "x.pdf", cOld) ∉ move_to_failed_send_folder
        [(strL "x.pdf", 3), (strL "Failed to Send/x.pdf", 8)] (strL "x.pdf")) ∧
    (∀ e, e ∈ [(strL "x.pdf", 3), (strL "Failed to Send/x.pdf", 8)] →
      e.1 ≠ strL "x.pdf" → e.1 ≠ failedRoot ++ strL "x.pdf" →
      e ∈ move_to_failed_send_folder
        [(strL "x.pdf", 3), (strL "Failed to Send/x.pdf", 8)] (strL "x.pdf"))) :=
  ⟨by decide,
    spec_c10 [(strL "x.pdf", 3), (strL "Failed to Send/x.pdf", 8)] (strL "x.pdf") 3
      (by decide)⟩

end PayStub
